import Mathlib

/-!
Shallow embedding of the skyline (Pareto-optimal subset) computation core of the
repository: the serial backend `computeSkylineCPU` and the dominance predicate
`dominates` (src/skylens-v2/services/skylineService.ts), the data-parallel
backend `computeSkylineWebGPU` with its WGSL kernel `SHADER_CODE`, the device
acquisition cache `getGPUState` and the readback-mapping retry
(src/unnamed/part_002), and the color mapper `computeColorMapND`
(src/skylens-v2/services/skylineService.ts).

Numeric attribute values are modelled as exact rationals: the dominance
computation only compares values, and both backends are required by the spec to
compare exactly, with no tolerance.  The serial backend compares the raw
(f64) values; the parallel backend marshals the values into a `Float32Array`,
so every buffered value is first rounded to binary32 (round to nearest, ties
to even), modelled by `roundF32`.  The device round trip of the parallel
backend is modelled by evaluating the kernel body directly on the flattened
input buffer; the u32 counters of the kernel are modelled as naturals (each
counter is bounded by the record count, and a JavaScript array length is below
2^32, so the counters cannot wrap).  Inputs whose magnitude exceeds the
largest finite binary32 value are outside the model (the real marshalling
produces an infinite float there); the theorems that depend on marshalling
restrict values to the finite binary32 range.
-/

namespace Skylens

/-- Record model (interface DataPoint, src/unnamed/part_001): unique string id,
display name, and a mapping from attribute key to numeric value, modelled as an
association list of exact rationals. -/
structure DataPoint where
  id : String
  name : String
  attrs : List (String × ℚ)
deriving DecidableEq

instance : Inhabited DataPoint := ⟨⟨"", "", []⟩⟩

/-- Reading an attribute value from a record: a missing key reads as 0, matching
the zero coercion of both backends (the `(a[attr.key] as number) || 0` read on
the CPU path, and `Number.isFinite(v) ? v : 0` after `Number(row[key])` on the
GPU marshalling path, which agree on finite numeric values). -/
def DataPoint.get (p : DataPoint) (key : String) : ℚ :=
  (List.lookup key p.attrs).getD 0

/-- Attribute model (interface AttributeConfig, src/unnamed/part_001). -/
structure AttributeConfig where
  key : String
  label : String
  min : ℚ
  max : ℚ
  weight : ℚ
  color : String
  angle : ℚ
deriving DecidableEq

instance : Inhabited AttributeConfig := ⟨⟨"", "", 0, 0, 0, "", 0⟩⟩

/-- Model of a JavaScript plain object used as a string-keyed counter map
(`Record<string, number>`): an insertion-ordered association list. -/
abbrev CounterMap := List (String × ℕ)

/-- Reading a key of a counter map; a missing key reads as 0. -/
def mapGet (m : CounterMap) (k : String) : ℕ :=
  (List.lookup k m).getD 0

/-- JavaScript object property write: an existing key is updated in place
(keeping its position), a new key is appended at the end. -/
def mapSet : CounterMap → String → ℕ → CounterMap
  | [], k, v => [(k, v)]
  | (k', v') :: rest, k, v =>
    if k' = k then (k, v) :: rest else (k', v') :: mapSet rest k v

/-- The `m[k]++` increment on a counter map. -/
def mapIncr (m : CounterMap) (k : String) : CounterMap :=
  mapSet m k (mapGet m k + 1)

/-- Adding `c` to the entry at `k` (used to state fold characterizations). -/
def mapAdd (m : CounterMap) (k : String) (c : ℕ) : CounterMap :=
  mapSet m k (mapGet m k + c)

/-- Model of `Set<string>.add` on an insertion-ordered string set: adding a
present element is a no-op, a new element is appended. -/
def setAdd (s : List String) (x : String) : List String :=
  if x ∈ s then s else s ++ [x]

/-- Key list of a counter map, in storage order. -/
def keys (m : CounterMap) : List String :=
  m.map Prod.fst

/-- Result model (interface SkylineResult, src/unnamed/part_001): the skyline
id set (insertion-ordered), the two counter maps, the elapsed time and the
backend tag. -/
structure SkylineResult where
  skylineIds : List String
  dominanceScores : CounterMap
  dominatedBy : CounterMap
  computationTime : ℚ
  method : String
deriving DecidableEq

/-- Loop body of `dominates` (skylineService.ts lines 7-22): iterate the active
attributes carrying the `betterInAtLeastOne` flag; return `false` as soon as
`valA < valB`; otherwise flag a strict win and return the flag at the end. -/
def dominatesLoop (a b : DataPoint) : List AttributeConfig → Bool → Bool
  | [], betterInAtLeastOne => betterInAtLeastOne
  | attr :: rest, betterInAtLeastOne =>
    let valA := a.get attr.key
    let valB := b.get attr.key
    if valA < valB then false
    else dominatesLoop a b rest (betterInAtLeastOne || decide (valA > valB))

/-- Dominance predicate (skylineService.ts lines 7-22): a dominates b iff a is
no worse than b on every active attribute and strictly better on at least
one. -/
def dominates (a b : DataPoint) (attributes : List AttributeConfig) : Bool :=
  dominatesLoop a b attributes false

/-- Counter initialization of the CPU backend (skylineService.ts lines 38-41):
`data.forEach(p => { m[p.id] = 0; })`. -/
def initCounters (data : List DataPoint) : CounterMap :=
  data.foldl (fun m p => mapSet m p.id 0) []

/-- Inner loop body of the CPU backend (skylineService.ts lines 48-62), for
outer record `a` at index `i`; the state is `(isADominated, dominatedBy,
dominanceScores)`. -/
def cpuInnerStep (data : List DataPoint) (attributes : List AttributeConfig)
    (a : DataPoint) (i : ℕ) (st : Bool × CounterMap × CounterMap) (j : ℕ) :
    Bool × CounterMap × CounterMap :=
  if i = j then st
  else
    let b := data.getD j default
    let st1 := if dominates b a attributes then (true, mapIncr st.2.1 a.id, st.2.2) else st
    if dominates a b attributes then (st1.1, st1.2.1, mapIncr st1.2.2 a.id) else st1

/-- Outer loop body of the CPU backend (skylineService.ts lines 44-68); the
state is `(skylineIds, dominatedBy, dominanceScores)`. -/
def cpuOuterStep (data : List DataPoint) (attributes : List AttributeConfig)
    (st : List String × CounterMap × CounterMap) (i : ℕ) :
    List String × CounterMap × CounterMap :=
  let a := data.getD i default
  let inner := (List.range data.length).foldl (cpuInnerStep data attributes a i)
    (false, st.2.1, st.2.2)
  let sky := if !inner.1 then setAdd st.1 a.id else st.1
  (sky, inner.2.1, inner.2.2)

/-- Serial backend `computeSkylineCPU` (skylineService.ts lines 27-79).  The
wall-clock elapsed time of the non-degenerate path is passed in as `elapsed`
(the source reads a monotonic clock); the degenerate path hardcodes 0. -/
def computeSkylineCPU (elapsed : ℚ) (data : List DataPoint)
    (attributes : List AttributeConfig) : SkylineResult :=
  if data.length = 0 then
    { skylineIds := [], dominanceScores := [], dominatedBy := [],
      computationTime := 0, method := "CPU" }
  else
    let init := initCounters data
    let fin := (List.range data.length).foldl (cpuOuterStep data attributes) ([], init, init)
    { skylineIds := fin.1, dominanceScores := fin.2.2, dominatedBy := fin.2.1,
      computationTime := elapsed, method := "CPU" }

/-- Flag state of the kernel dimension loop (SHADER_CODE lines 39-42 of
src/unnamed/part_002): `i_be_j` = "i is at least j on all dims so far",
`i_s_j` = "i strictly exceeds j on some dim so far", and symmetrically. -/
structure DimFlags where
  i_be_j : Bool
  i_s_j : Bool
  j_be_i : Bool
  j_s_i : Bool
deriving DecidableEq

/-- One iteration of the kernel dimension loop body (SHADER_CODE lines 45-49):
`if (v_i < v_j) { i_be_j = false; j_s_i = true; }` and
`if (v_i > v_j) { j_be_i = false; i_s_j = true; }`. -/
def dimStep (vi vj : ℚ) (f : DimFlags) : DimFlags :=
  let f1 := if vi < vj then { f with i_be_j := false, j_s_i := true } else f
  if vi > vj then { f1 with j_be_i := false, i_s_j := true } else f1

/-- Kernel dimension loop (SHADER_CODE lines 44-52) with the early break
`if (!i_be_j && !j_be_i) { break; }`; `fuel` is the number of remaining
dimensions and `d` the current dimension index. -/
def dimLoopAux (flat : ℕ → ℚ) (iOff jOff : ℕ) : ℕ → ℕ → DimFlags → DimFlags
  | 0, _, f => f
  | fuel + 1, d, f =>
    let f1 := dimStep (flat (iOff + d)) (flat (jOff + d)) f
    if !f1.i_be_j && !f1.j_be_i then f1
    else dimLoopAux flat iOff jOff fuel (d + 1) f1

/-- Full kernel dimension loop for a pair of row offsets, starting from the
initial flags `(true, false, true, false)` (SHADER_CODE lines 39-52). -/
def dimLoop (flat : ℕ → ℚ) (dims iOff jOff : ℕ) : DimFlags :=
  dimLoopAux flat iOff jOff dims 0 ⟨true, false, true, false⟩

/-- Body of the kernel loop over the other records j (SHADER_CODE lines 35-56);
the accumulator is `(d_by, d_score)`. -/
def kernelStep (flat : ℕ → ℚ) (dims i : ℕ) (acc : ℕ × ℕ) (j : ℕ) : ℕ × ℕ :=
  if i = j then acc
  else
    let f := dimLoop flat dims (i * dims) (j * dims)
    let acc1 := if f.i_be_j && f.i_s_j then (acc.1, acc.2 + 1) else acc
    if f.j_be_i && f.j_s_i then (acc1.1 + 1, acc1.2) else acc1

/-- Kernel work-item for record i (SHADER_CODE lines 26-60): loop over all
records j, returning the pair `(d_by, d_score)` written to `results[i]`. -/
def kernelMain (flat : ℕ → ℚ) (dims count i : ℕ) : ℕ × ℕ :=
  (List.range count).foldl (kernelStep flat dims i) (0, 0)

/-- Round-half-to-even of the non-negative fraction nn/dd (dd positive) to a
natural number, in integer arithmetic. -/
def roundHalfEvenNat (nn dd : ℕ) : ℕ :=
  let q := nn / dd
  let r := nn % dd
  if 2 * r < dd then q
  else if dd < 2 * r then q + 1
  else if q % 2 = 0 then q else q + 1

/-- Binary32 exponent of the positive value nn/dd: walk the value into the
interval [1, 2) by doubling or halving, accumulating the exponent, clamped to
the binary32 exponent range [-126, 127] (below -126 the subnormal unit in the
last place is fixed; at 127 the rounding grid of the largest binade is used,
the overflow-to-infinity region being outside the model).  The fuel of 300
covers the whole clamped range from any starting point. -/
def f32ExpGo : ℕ → ℕ → ℕ → ℤ → ℤ
  | 0, _, _, e => e
  | fuel + 1, nn, dd, e =>
    if e ≤ -126 then e
    else if 127 ≤ e then e
    else if nn < dd then f32ExpGo fuel (2 * nn) dd (e - 1)
    else if 2 * dd ≤ nn then f32ExpGo fuel nn (2 * dd) (e + 1)
    else e

/-- Rounding of the non-zero rational num/den to the binary32 grid: determine
the exponent e of the magnitude, scale the magnitude by 2^(23-e) so that one
unit is one unit in the last place, round half to even, and scale back,
reapplying the sign.  All arithmetic is on the integer numerator and
denominator. -/
def roundF32Val (num : ℤ) (den : ℕ) : ℚ :=
  let e := f32ExpGo 300 num.natAbs den 0
  let m : ℕ :=
    if 0 ≤ 23 - e then roundHalfEvenNat (num.natAbs * 2 ^ (23 - e).toNat) den
    else roundHalfEvenNat num.natAbs (den * 2 ^ (e - 23).toNat)
  let mz : ℤ := if num < 0 then -(m : ℤ) else (m : ℤ)
  if 0 ≤ e - 23 then mkRat (mz * 2 ^ (e - 23).toNat) 1
  else mkRat mz (2 ^ (23 - e).toNat)

/-- Round to nearest binary32 value, ties to even: the quantization performed
by storing a JS number (f64) into a `Float32Array` slot (the semantics of
Math.fround), for values whose rounding stays in the finite binary32 range. -/
def roundF32 (v : ℚ) : ℚ :=
  if v.num = 0 then 0 else roundF32Val v.num v.den

/-- Largest finite binary32 value, (2^24 - 1) * 2^104. -/
def floatMax32 : ℚ := mkRat ((2 ^ 24 - 1) * 2 ^ 104) 1

/-- Smallest finite binary32 value, -((2^24 - 1) * 2^104). -/
def floatMin32 : ℚ := mkRat (-((2 ^ 24 - 1) * 2 ^ 104)) 1

/-- Record with every attribute value rounded to binary32: the view of a
record that the kernel sees through the Float32Array input buffer. -/
def roundDP (p : DataPoint) : DataPoint :=
  { p with attrs := p.attrs.map fun q => (q.1, roundF32 q.2) }

/-- Marshalling of the records into the row-major N x D input buffer
(src/unnamed/part_002 lines 157-165), column order being the caller-supplied
active attribute order.  Storing into the `Float32Array` rounds each value to
binary32, modelled by `roundF32`. -/
def flatten : List DataPoint → List AttributeConfig → List ℚ
  | [], _ => []
  | row :: rest, attrs =>
    (attrs.map fun attr => roundF32 (row.get attr.key)) ++ flatten rest attrs

/-- Reading the input storage buffer at a flat index. -/
def flatGet (data : List DataPoint) (attrs : List AttributeConfig) (idx : ℕ) : ℚ :=
  (flatten data attrs).getD idx 0

/-- Output decoding loop body of the parallel backend (src/unnamed/part_002
lines 265-272): `dominatedBy[id] = res[2i]; dominanceScores[id] = res[2i+1];
if (res[2i] === 0) skylineIds.add(id);`.  The device round trip is modelled by
evaluating the kernel work-item directly.  The state is `(skylineIds,
dominatedBy, dominanceScores)`. -/
def gpuDecodeStep (data : List DataPoint) (flat : ℕ → ℚ) (dims count : ℕ)
    (st : List String × CounterMap × CounterMap) (i : ℕ) :
    List String × CounterMap × CounterMap :=
  let id := (data.getD i default).id
  let r := kernelMain flat dims count i
  let dBy := mapSet st.2.1 id r.1
  let dSc := mapSet st.2.2 id r.2
  let sky := if r.1 = 0 then setAdd st.1 id else st.1
  (sky, dBy, dSc)

/-- Parallel backend `computeSkylineWebGPU` (src/unnamed/part_002 lines
135-283), success path: degenerate input (no records or no active attributes)
short-circuits to an empty result; otherwise the kernel output for every record
is decoded into the result maps.  Both paths stamp the measured elapsed time
`elapsed` (`performance.now() - start`). -/
def computeSkylineWebGPU (elapsed : ℚ) (data : List DataPoint)
    (attrs : List AttributeConfig) : SkylineResult :=
  if data.length = 0 ∨ attrs.length = 0 then
    { skylineIds := [], dominanceScores := [], dominatedBy := [],
      computationTime := elapsed, method := "WebGPU" }
  else
    let count := data.length
    let dims := attrs.length
    let fin := (List.range count).foldl
      (gpuDecodeStep data (flatGet data attrs) dims count) ([], [], [])
    { skylineIds := fin.1, dominanceScores := fin.2.2, dominatedBy := fin.2.1,
      computationTime := elapsed, method := "WebGPU" }

/-- Canonical count of records strictly dominating record i (over indices). -/
def dominatedByCount (data : List DataPoint) (attrs : List AttributeConfig) (i : ℕ) : ℕ :=
  (List.range data.length).countP fun j =>
    decide (¬ i = j) && dominates (data.getD j default) (data.getD i default) attrs

/-- Canonical count of records strictly dominated by record i (over indices). -/
def dominanceScoreCount (data : List DataPoint) (attrs : List AttributeConfig) (i : ℕ) : ℕ :=
  (List.range data.length).countP fun j =>
    decide (¬ i = j) && dominates (data.getD i default) (data.getD j default) attrs

/-- Id of the record at index i. -/
def recId (data : List DataPoint) (i : ℕ) : String :=
  (data.getD i default).id

/-- Canonical skyline id list: ids of the records whose dominated-by count is
zero, in record order. -/
def specSkylineIds (data : List DataPoint) (attrs : List AttributeConfig) : List String :=
  ((List.range data.length).filter fun i => decide (dominatedByCount data attrs i = 0)).map
    (recId data)

/-- Canonical dominated-by map: record order, each id paired with its
dominated-by count. -/
def specDomByMap (data : List DataPoint) (attrs : List AttributeConfig) : CounterMap :=
  (List.range data.length).map fun i => (recId data i, dominatedByCount data attrs i)

/-- Canonical dominance-score map: record order, each id paired with its
dominance score. -/
def specScoreMap (data : List DataPoint) (attrs : List AttributeConfig) : CounterMap :=
  (List.range data.length).map fun i => (recId data i, dominanceScoreCount data attrs i)

/-- Abstract device/session handle produced by a successful WebGPU
acquisition. -/
structure GPUHandle where
  deviceId : ℕ
deriving DecidableEq

/-- Settled outcome of the module-level `gpuStatePromise`: either the acquired
handle or the rejection message. -/
abbrev GPUStatePromise := Except String GPUHandle

/-- Model of `getGPUState` (src/unnamed/part_002 lines 95-120).  The first
argument is the module-level `gpuStatePromise` cache before the call; `attempt`
is the outcome the environment would give to an acquisition attempt made by
this call (adapter/device request succeeding or failing).  Returns the promise
outcome the caller awaits and the cache after the call.  The source stores the
promise into `gpuStatePromise` before it settles and never clears it, so the
stored outcome is retained whether the attempt succeeds or fails. -/
def getGPUState (gpuStatePromise : Option GPUStatePromise) (attempt : GPUStatePromise) :
    GPUStatePromise × Option GPUStatePromise :=
  match gpuStatePromise with
  | some p => (p, some p)
  | none => (attempt, some attempt)

/-- Observable events of the readback-mapping section. -/
inductive ReadbackEvent
  | mapAttempt
  | unmapCall
deriving DecidableEq

/-- Model of the readback mapping section of `computeSkylineWebGPU`
(src/unnamed/part_002 lines 245-256): try `mapAsync`; on failure, `unmap` and
try `mapAsync` once more; a second failure is rethrown.  `outcomes k` is the
outcome the environment would give to the (k+1)-th mapping attempt of this
call; `unmap` is modelled as always succeeding.  Returns the event trace and
the final outcome of the section. -/
def mapReadback (outcomes : ℕ → Except String Unit) :
    List ReadbackEvent × Except String Unit :=
  match outcomes 0 with
  | .ok _ => ([.mapAttempt], .ok ())
  | .error _ =>
    match outcomes 1 with
    | .ok _ => ([.mapAttempt, .unmapCall, .mapAttempt], .ok ())
    | .error e2 => ([.mapAttempt, .unmapCall, .mapAttempt], .error e2)

/-- Ambient real-valued math library functions used by the color mapper
(Math.cos, Math.sin, Math.atan2, Math.sqrt, Math.PI), kept abstract: no claim
depends on their values. -/
structure TrigOps where
  cos : ℚ → ℚ
  sin : ℚ → ℚ
  atan2 : ℚ → ℚ → ℚ
  sqrt : ℚ → ℚ
  pi : ℚ

/-- Return value of `computeColorMapND`: either a string literal returned
directly by the source (`'#475569'`), or the string `d3.hcl(h, c, l).toString()`.
The two constructors are distinct because `d3.hcl(...).toString()` renders in
the `rgb(r, g, b)` format of d3-color, which is never the literal
`'#475569'`. -/
inductive ColorOutput
  | hexLiteral (s : String)
  | d3hcl (h c l : ℚ)
deriving DecidableEq

/-- JavaScript remainder `a % b` on rationals (truncated division, sign of the
dividend). -/
def jsMod (a b : ℚ) : ℚ :=
  a - b * ((if a / b < 0 then Int.ceil (a / b) else Int.floor (a / b)) : ℤ)

/-- Accumulation body of `computeColorMapND` (skylineService.ts lines 95-103);
the accumulator is `(x, y, totalNorm)`. -/
def colorStep (t : TrigOps) (point : DataPoint) (s : ℚ × ℚ × ℚ)
    (attr : AttributeConfig) : ℚ × ℚ × ℚ :=
  let val := point.get attr.key
  let norm := (val - attr.min) / max 1 (attr.max - attr.min)
  (s.1 + t.cos attr.angle * norm, s.2.1 + t.sin attr.angle * norm, s.2.2 + norm)

/-- Color mapper `computeColorMapND` (skylineService.ts lines 89-116): empty
active attribute list returns the literal `'#475569'`; accumulated magnitude
below 0.01 returns the fixed dark neutral `d3.hcl(0, 0, 30)`; otherwise the
hue/chroma/luminance triple is computed from the accumulated vector. -/
def computeColorMapND (t : TrigOps) (point : DataPoint)
    (attributes : List AttributeConfig) : ColorOutput :=
  if attributes.length = 0 then .hexLiteral "#475569"
  else
    let acc := attributes.foldl (colorStep t point) (0, 0, 0)
    if acc.2.2 < 1 / 100 then .d3hcl 0 0 30
    else
      let angle := t.atan2 acc.2.1 acc.1
      let hue := jsMod (angle * 180 / t.pi + 360) 360
      let strength := t.sqrt (acc.1 * acc.1 + acc.2.1 * acc.2.1) /
        t.sqrt ((attributes.length : ℚ))
      let chroma := 30 + strength * 60
      .d3hcl hue chroma 60

/-- Accumulated normalized magnitude of a record over the active attributes
(the `totalNorm` accumulator of skylineService.ts lines 93-102). -/
def totalNormOf (point : DataPoint) (attributes : List AttributeConfig) : ℚ :=
  attributes.foldl
    (fun s attr => s + (point.get attr.key - attr.min) / max 1 (attr.max - attr.min)) 0

/-! Helper lemmas about the counter-map and set models. -/

theorem bool_eq_of_iff {a b : Bool} (h : a = true ↔ b = true) : a = b := by
  cases a <;> cases b <;> simp_all

theorem lookup_mapSet_self (m : CounterMap) (k : String) (v : ℕ) :
    List.lookup k (mapSet m k v) = some v := by
  induction m with
  | nil => simp [mapSet, List.lookup]
  | cons p rest ih =>
    obtain ⟨k', v'⟩ := p
    by_cases h : k' = k
    · subst h
      simp [mapSet, List.lookup]
    · have hb : (k == k') = false := by
        simp
        exact fun he => h he.symm
      simp [mapSet, h, List.lookup, hb, ih]

theorem lookup_mapSet_ne (m : CounterMap) (k k' : String) (v : ℕ) (h : ¬ k' = k) :
    List.lookup k' (mapSet m k v) = List.lookup k' m := by
  have hb : (k' == k) = false := by simp [h]
  induction m with
  | nil => simp [mapSet, List.lookup, hb]
  | cons p rest ih =>
    obtain ⟨k0, v0⟩ := p
    by_cases h0 : k0 = k
    · subst h0
      simp [mapSet, List.lookup, hb]
    · simp [mapSet, h0, List.lookup, ih]

theorem mapGet_mapSet_self (m : CounterMap) (k : String) (v : ℕ) :
    mapGet (mapSet m k v) k = v := by
  simp [mapGet, lookup_mapSet_self]

theorem mapSet_mapSet_self (m : CounterMap) (k : String) (v w : ℕ) :
    mapSet (mapSet m k v) k w = mapSet m k w := by
  induction m with
  | nil => simp [mapSet]
  | cons p rest ih =>
    obtain ⟨k0, v0⟩ := p
    by_cases h0 : k0 = k
    · subst h0
      simp [mapSet]
    · simp [mapSet, h0, ih]

theorem mem_keys_mapSet (m : CounterMap) (k k' : String) (v : ℕ) :
    k' ∈ keys (mapSet m k v) ↔ k' ∈ keys m ∨ k' = k := by
  induction m with
  | nil => simp [mapSet, keys]
  | cons p rest ih =>
    obtain ⟨k0, v0⟩ := p
    by_cases h0 : k0 = k
    · subst h0
      simp [mapSet, keys]
      tauto
    · simp [mapSet, h0, keys] at ih ⊢
      tauto

theorem keys_mapSet_present (m : CounterMap) (k : String) (v : ℕ) (h : k ∈ keys m) :
    keys (mapSet m k v) = keys m := by
  induction m with
  | nil => simp [keys] at h
  | cons p rest ih =>
    obtain ⟨k0, v0⟩ := p
    by_cases h0 : k0 = k
    · subst h0
      simp [mapSet, keys]
    · have hr : k ∈ keys rest := by
        simp [keys] at h ⊢
        rcases h with h | h
        · exact absurd h.symm h0
        · exact h
      calc keys (mapSet ((k0, v0) :: rest) k v)
          = k0 :: keys (mapSet rest k v) := by simp [mapSet, h0, keys]
        _ = k0 :: keys rest := by rw [ih hr]
        _ = keys ((k0, v0) :: rest) := by simp [keys]

theorem mapSet_present_id (m : CounterMap) (k : String) (h : k ∈ keys m) :
    mapSet m k (mapGet m k) = m := by
  induction m with
  | nil => simp [keys] at h
  | cons p rest ih =>
    obtain ⟨k0, v0⟩ := p
    by_cases h0 : k0 = k
    · subst h0
      simp [mapSet, mapGet, List.lookup]
    · have hk : k ∈ keys rest := by
        simp [keys] at h ⊢
        rcases h with h | h
        · exact absurd h.symm h0
        · exact h
      have hb : (k == k0) = false := by
        simp
        exact fun he => h0 he.symm
      have hget : mapGet ((k0, v0) :: rest) k = mapGet rest k := by
        simp [mapGet, List.lookup, hb]
      rw [hget]
      have hset : mapSet ((k0, v0) :: rest) k (mapGet rest k)
          = (k0, v0) :: mapSet rest k (mapGet rest k) := by
        simp [mapSet, h0]
      rw [hset, ih hk]

theorem mapSet_absent (m : CounterMap) (k : String) (v : ℕ) (h : ¬ k ∈ keys m) :
    mapSet m k v = m ++ [(k, v)] := by
  induction m with
  | nil => simp [mapSet]
  | cons p rest ih =>
    obtain ⟨k0, v0⟩ := p
    have h0 : ¬ k0 = k := by
      intro he
      exact h (by simp [keys, he])
    have hr : ¬ k ∈ keys rest := by
      intro hk
      exact h (by simp [keys] at hk ⊢; tauto)
    simp [mapSet, h0, ih hr]

theorem lookup_append_absent (m m' : CounterMap) (k : String) (h : ¬ k ∈ keys m) :
    List.lookup k (m ++ m') = List.lookup k m' := by
  induction m with
  | nil => simp
  | cons p rest ih =>
    obtain ⟨k0, v0⟩ := p
    have h0 : ¬ k0 = k := by
      intro he
      exact h (by simp [keys, he])
    have hr : ¬ k ∈ keys rest := by
      intro hk
      exact h (by simp [keys] at hk ⊢; tauto)
    have hne : ¬ (k == k0) = true := by simp; exact fun he => h0 he.symm
    simp [List.lookup, hne, ih hr]

theorem mapSet_middle (m₁ m₂ : CounterMap) (k : String) (v w : ℕ) (h : ¬ k ∈ keys m₁) :
    mapSet (m₁ ++ (k, v) :: m₂) k w = m₁ ++ (k, w) :: m₂ := by
  induction m₁ with
  | nil => simp [mapSet]
  | cons p rest ih =>
    obtain ⟨k0, v0⟩ := p
    have h0 : ¬ k0 = k := by
      intro he
      exact h (by simp [keys, he])
    have hr : ¬ k ∈ keys rest := by
      intro hk
      exact h (by simp [keys] at hk ⊢; tauto)
    simp [mapSet, h0, ih hr]

theorem mapGet_middle (m₁ m₂ : CounterMap) (k : String) (v : ℕ) (h : ¬ k ∈ keys m₁) :
    mapGet (m₁ ++ (k, v) :: m₂) k = v := by
  simp [mapGet, lookup_append_absent _ _ _ h, List.lookup]

theorem mapAdd_middle (m₁ m₂ : CounterMap) (k : String) (v c : ℕ) (h : ¬ k ∈ keys m₁) :
    mapAdd (m₁ ++ (k, v) :: m₂) k c = m₁ ++ (k, v + c) :: m₂ := by
  rw [mapAdd, mapGet_middle _ _ _ _ h, mapSet_middle _ _ _ _ _ h]

theorem mapAdd_mapIncr (m : CounterMap) (k : String) (c : ℕ) :
    mapAdd (mapIncr m k) k c = mapAdd m k (c + 1) := by
  rw [mapIncr, mapAdd, mapAdd, mapGet_mapSet_self, mapSet_mapSet_self]
  congr 1
  omega

theorem mapAdd_present_zero (m : CounterMap) (k : String) (h : k ∈ keys m) :
    mapAdd m k 0 = m := by
  rw [mapAdd, Nat.add_zero, mapSet_present_id _ _ h]

theorem mem_keys_mapIncr (m : CounterMap) (k k' : String) (h : k' ∈ keys m) :
    k' ∈ keys (mapIncr m k) := by
  rw [mapIncr, mem_keys_mapSet]
  exact Or.inl h

theorem setAdd_absent (s : List String) (x : String) (h : ¬ x ∈ s) :
    setAdd s x = s ++ [x] := by
  simp [setAdd, h]

theorem keys_append (m m' : CounterMap) : keys (m ++ m') = keys m ++ keys m' := by
  simp [keys]

/-! Generic fold characterizations. -/

theorem foldl_invariant_congr {σ ι : Type} (f g : σ → ι → σ) (Inv : σ → Prop) :
    ∀ (l : List ι) (s : σ), Inv s →
      (∀ s' i, Inv s' → i ∈ l → f s' i = g s' i ∧ Inv (f s' i)) →
      l.foldl f s = l.foldl g s := by
  intro l
  induction l with
  | nil => intro s _ _; rfl
  | cons x xs ih =>
    intro s hs hstep
    have hx := hstep s x hs (by simp)
    simp only [List.foldl_cons]
    rw [ih (f s x) hx.2 fun s' i hi hm => hstep s' i hi (by simp [hm]), hx.1]

theorem foldl_prod3 {α β γ ι : Type} (f1 : α → ι → α) (f2 : β → ι → β) (f3 : γ → ι → γ) :
    ∀ (l : List ι) (a : α) (b : β) (c : γ),
      l.foldl (fun st i => (f1 st.1 i, f2 st.2.1 i, f3 st.2.2 i)) (a, b, c)
        = (l.foldl f1 a, l.foldl f2 b, l.foldl f3 c) := by
  intro l
  induction l with
  | nil => intros; rfl
  | cons x xs ih =>
    intro a b c
    simp only [List.foldl_cons]
    exact ih _ _ _

theorem foldl_setAdd_filter (g : ℕ → String) (p : ℕ → Prop) [DecidablePred p] :
    ∀ (l : List ℕ) (sky : List String), (∀ i ∈ l, ¬ g i ∈ sky) →
      l.Pairwise (fun i j => ¬ g i = g j) →
      l.foldl (fun s i => if p i then setAdd s (g i) else s) sky
        = sky ++ (l.filter fun i => decide (p i)).map g := by
  intro l
  induction l with
  | nil => intro sky _ _; simp
  | cons x xs ih =>
    intro sky habs hpw
    rcases List.pairwise_cons.mp hpw with ⟨hhead, htail⟩
    rw [List.foldl_cons]
    have hs : ∀ i ∈ xs, ¬ g i ∈ sky ++ [g x] := by
      intro i hi
      simp only [List.mem_append, List.mem_singleton]
      rintro (hc | hc)
      · exact habs i (by simp [hi]) hc
      · exact hhead i hi hc.symm
    by_cases hp : p x
    · rw [if_pos hp, setAdd_absent _ _ (habs x (by simp))]
      rw [ih (sky ++ [g x]) hs htail]
      simp [List.filter_cons, hp]
    · rw [if_neg hp]
      rw [ih sky (fun i hi => habs i (by simp [hi])) htail]
      simp [List.filter_cons, hp]

theorem foldl_mapSet_append (g : ℕ → String) (f : ℕ → ℕ) :
    ∀ (l : List ℕ) (pre : CounterMap), (∀ i ∈ l, ¬ g i ∈ keys pre) →
      l.Pairwise (fun i j => ¬ g i = g j) →
      l.foldl (fun m i => mapSet m (g i) (f i)) pre
        = pre ++ l.map fun i => (g i, f i) := by
  intro l
  induction l with
  | nil => intro pre _ _; simp
  | cons x xs ih =>
    intro pre habs hpw
    rcases List.pairwise_cons.mp hpw with ⟨hhead, htail⟩
    rw [List.foldl_cons, mapSet_absent _ _ _ (habs x (by simp))]
    have hs : ∀ i ∈ xs, ¬ g i ∈ keys (pre ++ [(g x, f x)]) := by
      intro i hi
      rw [keys_append]
      simp only [List.mem_append]
      rintro (hc | hc)
      · exact habs i (by simp [hi]) hc
      · have : g i = g x := by simpa [keys] using hc
        exact hhead i hi this.symm
    rw [ih (pre ++ [(g x, f x)]) hs htail]
    simp

theorem foldl_mapAdd_map (g : ℕ → String) (f : ℕ → ℕ) :
    ∀ (l : List ℕ) (pre : CounterMap), (∀ i ∈ l, ¬ g i ∈ keys pre) →
      l.Pairwise (fun i j => ¬ g i = g j) →
      l.foldl (fun m i => mapAdd m (g i) (f i)) (pre ++ l.map fun i => (g i, 0))
        = pre ++ l.map fun i => (g i, f i) := by
  intro l
  induction l with
  | nil => intro pre _ _; simp
  | cons x xs ih =>
    intro pre habs hpw
    rcases List.pairwise_cons.mp hpw with ⟨hhead, htail⟩
    rw [List.foldl_cons]
    have hmid : mapAdd (pre ++ (g x, 0) :: xs.map fun i => (g i, 0)) (g x) (f x)
        = pre ++ (g x, f x) :: xs.map fun i => (g i, 0) := by
      have := mapAdd_middle pre (xs.map fun i => (g i, 0)) (g x) 0 (f x) (habs x (by simp))
      simpa using this
    have hs : ∀ i ∈ xs, ¬ g i ∈ keys (pre ++ [(g x, f x)]) := by
      intro i hi
      rw [keys_append]
      simp only [List.mem_append]
      rintro (hc | hc)
      · exact habs i (by simp [hi]) hc
      · have : g i = g x := by simpa [keys] using hc
        exact hhead i hi this.symm
    have hassoc : pre ++ (g x, f x) :: xs.map (fun i => (g i, 0))
        = (pre ++ [(g x, f x)]) ++ xs.map fun i => (g i, 0) := by
      simp
    simp only [List.map_cons] at *
    rw [hmid, hassoc, ih (pre ++ [(g x, f x)]) hs htail]
    simp

theorem foldl_pairCount (P Q : ℕ → Bool) (step : ℕ × ℕ → ℕ → ℕ × ℕ) :
    ∀ (l : List ℕ),
      (∀ acc j, j ∈ l → step acc j
        = (acc.1 + (if P j then 1 else 0), acc.2 + (if Q j then 1 else 0))) →
      ∀ acc : ℕ × ℕ, l.foldl step acc = (acc.1 + l.countP P, acc.2 + l.countP Q) := by
  intro l
  induction l with
  | nil => intro _ acc; simp
  | cons x xs ih =>
    intro hstep acc
    rw [List.foldl_cons, hstep acc x (by simp),
      ih (fun acc j hj => hstep acc j (by simp [hj])) _]
    simp only [List.countP_cons]
    by_cases hx1 : P x <;> by_cases hx2 : Q x <;>
      simp [hx1, hx2, Prod.ext_iff] <;> omega

/-! Characterization of the dominance predicate. -/

theorem dominatesLoop_eq (a b : DataPoint) :
    ∀ (attrs : List AttributeConfig) (acc : Bool),
      dominatesLoop a b attrs acc
        = ((attrs.all fun attr => !decide (a.get attr.key < b.get attr.key)) &&
           (acc || attrs.any fun attr => decide (a.get attr.key > b.get attr.key))) := by
  intro attrs
  induction attrs with
  | nil => intro acc; simp [dominatesLoop]
  | cons attr rest ih =>
    intro acc
    simp only [dominatesLoop, List.all_cons, List.any_cons]
    by_cases h : a.get attr.key < b.get attr.key
    · rw [if_pos h]
      simp [h]
    · rw [if_neg h, ih]
      simp [h, Bool.or_assoc]

theorem dominates_eq (a b : DataPoint) (attrs : List AttributeConfig) :
    dominates a b attrs
      = ((attrs.all fun attr => !decide (a.get attr.key < b.get attr.key)) &&
         (attrs.any fun attr => decide (a.get attr.key > b.get attr.key))) := by
  rw [dominates, dominatesLoop_eq]
  simp

theorem dominates_iff (a b : DataPoint) (attrs : List AttributeConfig) :
    dominates a b attrs = true ↔
      ((∀ attr ∈ attrs, b.get attr.key ≤ a.get attr.key) ∧
       ∃ attr ∈ attrs, b.get attr.key < a.get attr.key) := by
  rw [dominates_eq]
  simp [not_lt]

theorem dominates_irrefl (a : DataPoint) (attrs : List AttributeConfig) :
    dominates a a attrs = false := by
  rw [dominates_eq]
  simp

theorem dominates_antisymm (a b : DataPoint) (attrs : List AttributeConfig) :
    ¬ (dominates a b attrs = true ∧ dominates b a attrs = true) := by
  rintro ⟨hab, hba⟩
  rw [dominates_iff] at hab hba
  obtain ⟨-, attr, hmem, hlt⟩ := hab
  exact absurd (hba.1 attr hmem) (not_le.mpr hlt)

theorem dominates_of_eq_vals (a b : DataPoint) (attrs : List AttributeConfig)
    (h : ∀ attr ∈ attrs, a.get attr.key = b.get attr.key) :
    dominates a b attrs = false ∧ dominates b a attrs = false := by
  constructor
  · rw [← Bool.not_eq_true, dominates_iff]
    rintro ⟨-, attr, hmem, hlt⟩
    rw [h attr hmem] at hlt
    exact lt_irrefl _ hlt
  · rw [← Bool.not_eq_true, dominates_iff]
    rintro ⟨-, attr, hmem, hlt⟩
    rw [h attr hmem] at hlt
    exact lt_irrefl _ hlt

/-! Characterization of the kernel dimension loop. -/

theorem dimStep_i_be_j (vi vj : ℚ) (f : DimFlags) :
    (dimStep vi vj f).i_be_j = (f.i_be_j && !decide (vi < vj)) := by
  simp only [dimStep]
  by_cases h1 : vi < vj <;> by_cases h2 : vi > vj <;> simp [h1, h2]

theorem dimStep_j_s_i (vi vj : ℚ) (f : DimFlags) :
    (dimStep vi vj f).j_s_i = (f.j_s_i || decide (vi < vj)) := by
  simp only [dimStep]
  by_cases h1 : vi < vj <;> by_cases h2 : vi > vj <;> simp [h1, h2]

theorem dimStep_j_be_i (vi vj : ℚ) (f : DimFlags) :
    (dimStep vi vj f).j_be_i = (f.j_be_i && !decide (vi > vj)) := by
  simp only [dimStep]
  by_cases h1 : vi < vj <;> by_cases h2 : vi > vj <;> simp [h1, h2]

theorem dimStep_i_s_j (vi vj : ℚ) (f : DimFlags) :
    (dimStep vi vj f).i_s_j = (f.i_s_j || decide (vi > vj)) := by
  simp only [dimStep]
  by_cases h1 : vi < vj <;> by_cases h2 : vi > vj <;> simp [h1, h2]

theorem band_false_left {a b c : Bool} (h : (a && b) = false) : (a && (b && c)) = false := by
  cases a <;> cases b <;> simp_all

theorem dimLoopAux_spec (flat : ℕ → ℚ) (iOff jOff : ℕ) :
    ∀ (fuel d : ℕ) (f : DimFlags),
      (((dimLoopAux flat iOff jOff fuel d f).i_be_j &&
        (dimLoopAux flat iOff jOff fuel d f).i_s_j)
        = ((f.i_be_j && ((List.range' d fuel).all fun k =>
              !decide (flat (iOff + k) < flat (jOff + k)))) &&
           (f.i_s_j || (List.range' d fuel).any fun k =>
              decide (flat (iOff + k) > flat (jOff + k))))) ∧
      (((dimLoopAux flat iOff jOff fuel d f).j_be_i &&
        (dimLoopAux flat iOff jOff fuel d f).j_s_i)
        = ((f.j_be_i && ((List.range' d fuel).all fun k =>
              !decide (flat (iOff + k) > flat (jOff + k)))) &&
           (f.j_s_i || (List.range' d fuel).any fun k =>
              decide (flat (iOff + k) < flat (jOff + k))))) := by
  intro fuel
  induction fuel with
  | zero =>
    intro d f
    simp [dimLoopAux]
  | succ fuel ih =>
    intro d f
    have hrange : List.range' d (fuel + 1) = d :: List.range' (d + 1) fuel :=
      List.range'_succ d fuel 1
    set f1 := dimStep (flat (iOff + d)) (flat (jOff + d)) f with hf1
    have e1 := dimStep_i_be_j (flat (iOff + d)) (flat (jOff + d)) f
    have e2 := dimStep_i_s_j (flat (iOff + d)) (flat (jOff + d)) f
    have e3 := dimStep_j_be_i (flat (iOff + d)) (flat (jOff + d)) f
    have e4 := dimStep_j_s_i (flat (iOff + d)) (flat (jOff + d)) f
    rw [← hf1] at e1 e2 e3 e4
    have hstep : dimLoopAux flat iOff jOff (fuel + 1) d f
        = if !f1.i_be_j && !f1.j_be_i then f1
          else dimLoopAux flat iOff jOff fuel (d + 1) f1 := rfl
    rw [hstep, hrange]
    by_cases hbr : (!f1.i_be_j && !f1.j_be_i) = true
    · rw [if_pos hbr]
      simp only [Bool.and_eq_true, Bool.not_eq_true'] at hbr
      simp only [List.all_cons, List.any_cons]
      have hz1 : (f.i_be_j && !decide (flat (iOff + d) < flat (jOff + d))) = false := by
        rw [← e1]
        exact hbr.1
      have hz2 : (f.j_be_i && !decide (flat (iOff + d) > flat (jOff + d))) = false := by
        rw [← e3]
        exact hbr.2
      constructor
      · rw [hbr.1, Bool.false_and, band_false_left hz1, Bool.false_and]
      · rw [hbr.2, Bool.false_and, band_false_left hz2, Bool.false_and]
    · rw [if_neg hbr]
      obtain ⟨ihA, ihB⟩ := ih (d + 1) f1
      simp only [List.all_cons, List.any_cons]
      constructor
      · rw [ihA, e1, e2]
        congr 1
        · rw [Bool.and_assoc]
        · rw [Bool.or_assoc]
      · rw [ihB, e3, e4]
        congr 1
        · rw [Bool.and_assoc]
        · rw [Bool.or_assoc]

theorem dimLoop_spec (flat : ℕ → ℚ) (dims iOff jOff : ℕ) :
    (((dimLoop flat dims iOff jOff).i_be_j && (dimLoop flat dims iOff jOff).i_s_j)
      = (((List.range dims).all fun k => !decide (flat (iOff + k) < flat (jOff + k))) &&
         ((List.range dims).any fun k => decide (flat (iOff + k) > flat (jOff + k))))) ∧
    (((dimLoop flat dims iOff jOff).j_be_i && (dimLoop flat dims iOff jOff).j_s_i)
      = (((List.range dims).all fun k => !decide (flat (iOff + k) > flat (jOff + k))) &&
         ((List.range dims).any fun k => decide (flat (iOff + k) < flat (jOff + k))))) := by
  have h := dimLoopAux_spec flat iOff jOff dims 0 ⟨true, false, true, false⟩
  rw [List.range_eq_range']
  simpa [dimLoop] using h

/-! Flat buffer indexing. -/

theorem flatten_length (data : List DataPoint) (attrs : List AttributeConfig) :
    (flatten data attrs).length = data.length * attrs.length := by
  induction data with
  | nil => simp [flatten]
  | cons row rest ih =>
    simp [flatten, ih, Nat.succ_mul, Nat.add_comm]

theorem roundF32_zero : roundF32 0 = 0 := by decide

theorem lookup_map_round (k : String) :
    ∀ l : List (String × ℚ),
      List.lookup k (l.map fun q => (q.1, roundF32 q.2))
        = (List.lookup k l).map roundF32 := by
  intro l
  induction l with
  | nil => simp
  | cons q rest ih =>
    obtain ⟨k0, v0⟩ := q
    by_cases h : k = k0
    · subst h
      simp [List.lookup]
    · have hb : (k == k0) = false := by simp [h]
      simp [List.lookup, hb, ih]

theorem roundDP_get (p : DataPoint) (k : String) :
    (roundDP p).get k = roundF32 (p.get k) := by
  rw [roundDP, DataPoint.get, DataPoint.get]
  dsimp only
  rw [lookup_map_round]
  cases List.lookup k p.attrs with
  | none => simp [roundF32_zero]
  | some v => simp

theorem roundDP_id (p : DataPoint) : (roundDP p).id = p.id := rfl

theorem getD_map_lt {α β : Type} [Inhabited α] [Inhabited β] (f : α → β)
    (l : List α) (i : ℕ) (h : i < l.length) :
    (l.map f).getD i default = f (l.getD i default) := by
  have h2 : i < (l.map f).length := by simpa using h
  rw [List.getD_eq_getElem _ _ h2, List.getElem_map, List.getD_eq_getElem _ _ h]

theorem ids_roundDP (data : List DataPoint) :
    (data.map roundDP).map DataPoint.id = data.map DataPoint.id := by
  rw [List.map_map]
  apply List.map_congr_left
  intro p _
  rfl

theorem flatGet_eq (data : List DataPoint) (attrs : List AttributeConfig) :
    ∀ (i d : ℕ), i < data.length → d < attrs.length →
      flatGet data attrs (i * attrs.length + d)
        = ((data.map roundDP).getD i default).get ((attrs.getD d default).key) := by
  induction data with
  | nil => intro i d hi _; simp at hi
  | cons row rest ih =>
    intro i d hi hd
    match i with
    | 0 =>
      have hlen : d < (attrs.map fun attr => roundF32 (row.get attr.key)).length := by
        simpa using hd
      rw [flatGet, flatten, Nat.zero_mul, Nat.zero_add,
        List.getD_append _ _ _ _ hlen, List.getD_eq_getElem _ _ hlen,
        List.map_cons, List.getD_cons_zero, roundDP_get, List.getD_eq_getElem _ _ hd]
      simp
    | i + 1 =>
      have hrow : (attrs.map fun attr => roundF32 (row.get attr.key)).length
          = attrs.length := by
        simp
      have hidx : (i + 1) * attrs.length + d
          = (attrs.map fun attr => roundF32 (row.get attr.key)).length
            + (i * attrs.length + d) := by
        rw [hrow]
        ring
      rw [flatGet, flatten, hidx, List.getD_append_right _ _ _ _ (Nat.le_add_right _ _),
        Nat.add_sub_cancel_left]
      have hi' : i < rest.length := by simpa using hi
      have := ih i d hi' hd
      rw [flatGet] at this
      rw [List.map_cons, List.getD_cons_succ]
      simpa using this

/-! Bridges between element-wise and index-wise quantification. -/

theorem forall_mem_iff_range {α : Type} [Inhabited α] (l : List α) (P : α → Prop) :
    (∀ x ∈ l, P x) ↔ ∀ k ∈ List.range l.length, P (l.getD k default) := by
  simp only [List.mem_range]
  constructor
  · intro h k hk
    rw [List.getD_eq_getElem _ _ hk]
    exact h _ (List.getElem_mem hk)
  · intro h x hx
    obtain ⟨k, hk, rfl⟩ := List.mem_iff_getElem.mp hx
    have := h k hk
    rwa [List.getD_eq_getElem _ _ hk] at this

theorem exists_mem_iff_range {α : Type} [Inhabited α] (l : List α) (P : α → Prop) :
    (∃ x ∈ l, P x) ↔ ∃ k ∈ List.range l.length, P (l.getD k default) := by
  simp only [List.mem_range]
  constructor
  · rintro ⟨x, hx, hP⟩
    obtain ⟨k, hk, rfl⟩ := List.mem_iff_getElem.mp hx
    refine ⟨k, hk, ?_⟩
    rwa [List.getD_eq_getElem _ _ hk]
  · rintro ⟨k, hk, hP⟩
    refine ⟨l.getD k default, ?_, hP⟩
    rw [List.getD_eq_getElem _ _ hk]
    exact List.getElem_mem hk

theorem map_getD_range {α β : Type} [Inhabited α] (l : List α) (f : α → β) :
    l.map f = (List.range l.length).map fun i => f (l.getD i default) := by
  induction l with
  | nil => simp
  | cons x xs _ =>
    rw [List.map_cons, List.length_cons, List.range_succ_eq_map, List.map_cons,
      List.map_map]
    congr 1

theorem pairwise_recId (data : List DataPoint)
    (hids : (data.map DataPoint.id).Nodup) :
    (List.range data.length).Pairwise fun i j => ¬ recId data i = recId data j := by
  rw [map_getD_range data DataPoint.id] at hids
  have := List.pairwise_map.mp hids
  exact this.imp fun h => h

/-! Kernel flags coincide with the serial dominance predicate. -/

theorem kernel_flags_i (data : List DataPoint) (attrs : List AttributeConfig)
    (i j : ℕ) (hi : i < data.length) (hj : j < data.length) :
    ((dimLoop (flatGet data attrs) attrs.length (i * attrs.length) (j * attrs.length)).i_be_j &&
     (dimLoop (flatGet data attrs) attrs.length (i * attrs.length) (j * attrs.length)).i_s_j)
      = dominates ((data.map roundDP).getD i default)
          ((data.map roundDP).getD j default) attrs := by
  rw [(dimLoop_spec (flatGet data attrs) attrs.length (i * attrs.length) (j * attrs.length)).1,
    dominates_eq]
  apply bool_eq_of_iff
  simp only [Bool.and_eq_true, List.all_eq_true, List.any_eq_true,
    Bool.not_eq_true', decide_eq_false_iff_not, decide_eq_true_eq, gt_iff_lt]
  constructor
  · rintro ⟨hall, k, hk, hgt⟩
    have hk' : k < attrs.length := List.mem_range.mp hk
    constructor
    · rw [forall_mem_iff_range]
      intro m hm
      have hm' : m < attrs.length := List.mem_range.mp hm
      have := hall m hm
      rwa [flatGet_eq data attrs i m hi hm', flatGet_eq data attrs j m hj hm'] at this
    · rw [exists_mem_iff_range]
      refine ⟨k, hk, ?_⟩
      rwa [flatGet_eq data attrs i k hi hk', flatGet_eq data attrs j k hj hk'] at hgt
  · rintro ⟨hall, hex⟩
    rw [forall_mem_iff_range] at hall
    rw [exists_mem_iff_range] at hex
    obtain ⟨k, hk, hgt⟩ := hex
    have hk' : k < attrs.length := List.mem_range.mp hk
    constructor
    · intro m hm
      have hm' : m < attrs.length := List.mem_range.mp hm
      rw [flatGet_eq data attrs i m hi hm', flatGet_eq data attrs j m hj hm']
      exact hall m hm
    · refine ⟨k, hk, ?_⟩
      rwa [flatGet_eq data attrs i k hi hk', flatGet_eq data attrs j k hj hk']

theorem kernel_flags_j (data : List DataPoint) (attrs : List AttributeConfig)
    (i j : ℕ) (hi : i < data.length) (hj : j < data.length) :
    ((dimLoop (flatGet data attrs) attrs.length (i * attrs.length) (j * attrs.length)).j_be_i &&
     (dimLoop (flatGet data attrs) attrs.length (i * attrs.length) (j * attrs.length)).j_s_i)
      = dominates ((data.map roundDP).getD j default)
          ((data.map roundDP).getD i default) attrs := by
  rw [(dimLoop_spec (flatGet data attrs) attrs.length (i * attrs.length) (j * attrs.length)).2,
    dominates_eq]
  apply bool_eq_of_iff
  simp only [Bool.and_eq_true, List.all_eq_true, List.any_eq_true,
    Bool.not_eq_true', decide_eq_false_iff_not, decide_eq_true_eq, gt_iff_lt]
  constructor
  · rintro ⟨hall, k, hk, hlt⟩
    have hk' : k < attrs.length := List.mem_range.mp hk
    constructor
    · rw [forall_mem_iff_range]
      intro m hm
      have hm' : m < attrs.length := List.mem_range.mp hm
      have := hall m hm
      rwa [flatGet_eq data attrs i m hi hm', flatGet_eq data attrs j m hj hm'] at this
    · rw [exists_mem_iff_range]
      refine ⟨k, hk, ?_⟩
      rwa [flatGet_eq data attrs i k hi hk', flatGet_eq data attrs j k hj hk'] at hlt
  · rintro ⟨hall, hex⟩
    rw [forall_mem_iff_range] at hall
    rw [exists_mem_iff_range] at hex
    obtain ⟨k, hk, hlt⟩ := hex
    have hk' : k < attrs.length := List.mem_range.mp hk
    constructor
    · intro m hm
      have hm' : m < attrs.length := List.mem_range.mp hm
      rw [flatGet_eq data attrs i m hi hm', flatGet_eq data attrs j m hj hm']
      exact hall m hm
    · refine ⟨k, hk, ?_⟩
      rwa [flatGet_eq data attrs i k hi hk', flatGet_eq data attrs j k hj hk']

theorem kernelStep_eq (flat : ℕ → ℚ) (dims i : ℕ) (acc : ℕ × ℕ) (j : ℕ) (hij : ¬ i = j) :
    kernelStep flat dims i acc j
      = (acc.1 + (if (dimLoop flat dims (i * dims) (j * dims)).j_be_i &&
                     (dimLoop flat dims (i * dims) (j * dims)).j_s_i then 1 else 0),
         acc.2 + (if (dimLoop flat dims (i * dims) (j * dims)).i_be_j &&
                     (dimLoop flat dims (i * dims) (j * dims)).i_s_j then 1 else 0)) := by
  rw [kernelStep, if_neg hij]
  cases hA : ((dimLoop flat dims (i * dims) (j * dims)).i_be_j &&
      (dimLoop flat dims (i * dims) (j * dims)).i_s_j) <;>
    cases hB : ((dimLoop flat dims (i * dims) (j * dims)).j_be_i &&
        (dimLoop flat dims (i * dims) (j * dims)).j_s_i) <;>
      simp [hA, hB]

theorem kernelMain_eq (data : List DataPoint) (attrs : List AttributeConfig)
    (i : ℕ) (hi : i < data.length) :
    kernelMain (flatGet data attrs) attrs.length data.length i
      = (dominatedByCount (data.map roundDP) attrs i,
         dominanceScoreCount (data.map roundDP) attrs i) := by
  rw [kernelMain, dominatedByCount, dominanceScoreCount, List.length_map]
  rw [foldl_pairCount
    (fun j => decide (¬ i = j) && dominates ((data.map roundDP).getD j default)
      ((data.map roundDP).getD i default) attrs)
    (fun j => decide (¬ i = j) && dominates ((data.map roundDP).getD i default)
      ((data.map roundDP).getD j default) attrs)
    (kernelStep (flatGet data attrs) attrs.length i) (List.range data.length) ?_ (0, 0)]
  · simp
  · intro acc j hj
    have hj' : j < data.length := List.mem_range.mp hj
    by_cases hij : i = j
    · rw [kernelStep, if_pos hij]
      simp [hij, Prod.ext_iff]
    · rw [kernelStep_eq _ _ _ _ _ hij,
        kernel_flags_i data attrs i j hi hj', kernel_flags_j data attrs i j hi hj']
      have hd : decide (¬ i = j) = true := by simp [hij]
      simp only [hd, Bool.true_and]

/-! Characterization of the serial backend loops. -/

theorem any_false_iff_countP_zero {l : List ℕ} {p : ℕ → Bool} :
    l.any p = false ↔ l.countP p = 0 := by
  rw [← Bool.not_eq_true, List.any_eq_true, List.countP_eq_zero]
  push_neg
  rfl

theorem cpuInner_eq (data : List DataPoint) (attrs : List AttributeConfig)
    (a : DataPoint) (i : ℕ) :
    ∀ (l : List ℕ) (b0 : Bool) (dBy dSc : CounterMap),
      a.id ∈ keys dBy → a.id ∈ keys dSc →
      l.foldl (cpuInnerStep data attrs a i) (b0, dBy, dSc)
        = (b0 || l.any fun j => decide (¬ i = j) &&
             dominates (data.getD j default) a attrs,
           mapAdd dBy a.id (l.countP fun j => decide (¬ i = j) &&
             dominates (data.getD j default) a attrs),
           mapAdd dSc a.id (l.countP fun j => decide (¬ i = j) &&
             dominates a (data.getD j default) attrs)) := by
  intro l
  induction l with
  | nil =>
    intro b0 dBy dSc h1 h2
    simp [mapAdd_present_zero _ _ h1, mapAdd_present_zero _ _ h2]
  | cons j js ih =>
    intro b0 dBy dSc h1 h2
    rw [List.foldl_cons]
    by_cases hij : i = j
    · subst hij
      have hstep : cpuInnerStep data attrs a i (b0, dBy, dSc) i = (b0, dBy, dSc) := by
        rw [cpuInnerStep, if_pos rfl]
      rw [hstep, ih b0 dBy dSc h1 h2]
      simp [List.any_cons, List.countP_cons]
    · have hd : decide (¬ i = j) = true := by simp [hij]
      cases hba : dominates (data.getD j default) a attrs <;>
        cases hab : dominates a (data.getD j default) attrs
      · have hstep : cpuInnerStep data attrs a i (b0, dBy, dSc) j = (b0, dBy, dSc) := by
          rw [cpuInnerStep, if_neg hij]
          simp only [hba, hab]
          simp
        rw [hstep, ih b0 dBy dSc h1 h2]
        simp only [List.any_cons, List.countP_cons, hd, hba, hab]
        simp
      · have hstep : cpuInnerStep data attrs a i (b0, dBy, dSc) j
            = (b0, dBy, mapIncr dSc a.id) := by
          rw [cpuInnerStep, if_neg hij]
          simp only [hba, hab]
          simp
        rw [hstep, ih b0 dBy (mapIncr dSc a.id) h1 (mem_keys_mapIncr _ _ _ h2),
          mapAdd_mapIncr]
        simp only [List.any_cons, List.countP_cons, hd, hba, hab]
        simp
      · have hstep : cpuInnerStep data attrs a i (b0, dBy, dSc) j
            = (true, mapIncr dBy a.id, dSc) := by
          rw [cpuInnerStep, if_neg hij]
          simp only [hba, hab]
          simp
        rw [hstep, ih true (mapIncr dBy a.id) dSc (mem_keys_mapIncr _ _ _ h1) h2,
          mapAdd_mapIncr]
        simp only [List.any_cons, List.countP_cons, hd, hba, hab]
        simp
      · have hstep : cpuInnerStep data attrs a i (b0, dBy, dSc) j
            = (true, mapIncr dBy a.id, mapIncr dSc a.id) := by
          rw [cpuInnerStep, if_neg hij]
          simp only [hba, hab]
          simp
        rw [hstep, ih true (mapIncr dBy a.id) (mapIncr dSc a.id)
          (mem_keys_mapIncr _ _ _ h1) (mem_keys_mapIncr _ _ _ h2),
          mapAdd_mapIncr, mapAdd_mapIncr]
        simp only [List.any_cons, List.countP_cons, hd, hba, hab]
        simp

theorem initCounters_go (data : List DataPoint) :
    ∀ pre : CounterMap, (∀ q ∈ data, ¬ q.id ∈ keys pre) →
      (data.map DataPoint.id).Nodup →
      data.foldl (fun m p => mapSet m p.id 0) pre
        = pre ++ data.map fun p => (p.id, 0) := by
  induction data with
  | nil => intro pre _ _; simp
  | cons p rest ih =>
    intro pre habs hnd
    have hnd' : (∀ x ∈ rest, ¬ x.id = p.id) ∧ (rest.map DataPoint.id).Nodup := by
      simpa using hnd
    obtain ⟨hhd, htl⟩ := hnd'
    rw [List.foldl_cons, mapSet_absent _ _ _ (habs p (by simp))]
    have hs : ∀ q ∈ rest, ¬ q.id ∈ keys (pre ++ [(p.id, 0)]) := by
      intro q hq
      rw [keys_append]
      simp only [List.mem_append]
      rintro (hc | hc)
      · exact habs q (by simp [hq]) hc
      · have hqe : q.id = p.id := by simpa [keys] using hc
        exact hhd q hq hqe
    rw [ih (pre ++ [(p.id, 0)]) hs htl]
    simp

theorem initCounters_eq (data : List DataPoint)
    (hids : (data.map DataPoint.id).Nodup) :
    initCounters data = (List.range data.length).map fun i => (recId data i, 0) := by
  rw [initCounters, initCounters_go data [] (by simp [keys]) hids, List.nil_append]
  exact map_getD_range data fun p => (p.id, 0)

theorem mem_keys_initCounters (data : List DataPoint)
    (hids : (data.map DataPoint.id).Nodup) (q : DataPoint) (hq : q ∈ data) :
    q.id ∈ keys (initCounters data) := by
  rw [initCounters_eq data hids]
  obtain ⟨i, hi, rfl⟩ := List.mem_iff_getElem.mp hq
  have : keys ((List.range data.length).map fun i => (recId data i, 0))
      = (List.range data.length).map (recId data) := by
    simp [keys]
  rw [this]
  refine List.mem_map.mpr ⟨i, List.mem_range.mpr hi, ?_⟩
  rw [recId, List.getD_eq_getElem _ _ hi]

theorem cpu_spec (elapsed : ℚ) (data : List DataPoint) (attrs : List AttributeConfig)
    (hd : ¬ data.length = 0) (hids : (data.map DataPoint.id).Nodup) :
    computeSkylineCPU elapsed data attrs
      = ⟨specSkylineIds data attrs, specScoreMap data attrs, specDomByMap data attrs,
         elapsed, "CPU"⟩ := by
  rw [computeSkylineCPU, if_neg hd]
  dsimp only
  have hpw := pairwise_recId data hids
  have hcongr : (List.range data.length).foldl (cpuOuterStep data attrs)
      ([], initCounters data, initCounters data)
      = (List.range data.length).foldl
          (fun st i =>
            (if dominatedByCount data attrs i = 0 then setAdd st.1 (recId data i) else st.1,
             mapAdd st.2.1 (recId data i) (dominatedByCount data attrs i),
             mapAdd st.2.2 (recId data i) (dominanceScoreCount data attrs i)))
          ([], initCounters data, initCounters data) := by
    refine foldl_invariant_congr _ _
      (fun st => (∀ q ∈ data, q.id ∈ keys st.2.1) ∧ (∀ q ∈ data, q.id ∈ keys st.2.2))
      _ _ ⟨fun q hq => mem_keys_initCounters data hids q hq,
           fun q hq => mem_keys_initCounters data hids q hq⟩ ?_
    intro st i hInv hi
    have hi' : i < data.length := List.mem_range.mp hi
    have hmem : data.getD i default ∈ data := by
      rw [List.getD_eq_getElem _ _ hi']
      exact List.getElem_mem hi'
    have h1 : (data.getD i default).id ∈ keys st.2.1 := hInv.1 _ hmem
    have h2 : (data.getD i default).id ∈ keys st.2.2 := hInv.2 _ hmem
    have hinner := cpuInner_eq data attrs (data.getD i default) i
      (List.range data.length) false st.2.1 st.2.2 h1 h2
    have hstepeq : cpuOuterStep data attrs st i
        = (if dominatedByCount data attrs i = 0 then setAdd st.1 (recId data i) else st.1,
           mapAdd st.2.1 (recId data i) (dominatedByCount data attrs i),
           mapAdd st.2.2 (recId data i) (dominanceScoreCount data attrs i)) := by
      rw [cpuOuterStep]
      simp only [hinner, Bool.false_or]
      have hcond : ((List.range data.length).any fun j => decide (¬ i = j) &&
          dominates (data.getD j default) (data.getD i default) attrs) = false
          ↔ dominatedByCount data attrs i = 0 := by
        rw [dominatedByCount]
        exact any_false_iff_countP_zero
      by_cases hc : dominatedByCount data attrs i = 0
      · rw [if_pos hc]
        have hany := hcond.mpr hc
        rw [hany]
        rfl
      · rw [if_neg hc]
        have hany : ((List.range data.length).any fun j => decide (¬ i = j) &&
            dominates (data.getD j default) (data.getD i default) attrs) = true := by
          cases hx : ((List.range data.length).any fun j => decide (¬ i = j) &&
              dominates (data.getD j default) (data.getD i default) attrs)
          · exact absurd (hcond.mp hx) hc
          · rfl
        rw [hany]
        rfl
    refine ⟨hstepeq, ?_⟩
    rw [hstepeq]
    constructor
    · intro q hq
      dsimp only
      rw [mapAdd, mem_keys_mapSet]
      exact Or.inl (hInv.1 q hq)
    · intro q hq
      dsimp only
      rw [mapAdd, mem_keys_mapSet]
      exact Or.inl (hInv.2 q hq)
  rw [hcongr, foldl_prod3
    (fun s i => if dominatedByCount data attrs i = 0 then setAdd s (recId data i) else s)
    (fun m i => mapAdd m (recId data i) (dominatedByCount data attrs i))
    (fun m i => mapAdd m (recId data i) (dominanceScoreCount data attrs i))
    (List.range data.length) [] (initCounters data) (initCounters data)]
  have hsky : (List.range data.length).foldl
      (fun s i => if dominatedByCount data attrs i = 0 then setAdd s (recId data i) else s) []
      = specSkylineIds data attrs := by
    rw [foldl_setAdd_filter (recId data) (fun i => dominatedByCount data attrs i = 0)
      (List.range data.length) [] (by simp) hpw]
    rw [specSkylineIds, List.nil_append]
  have hby : (List.range data.length).foldl
      (fun m i => mapAdd m (recId data i) (dominatedByCount data attrs i))
      (initCounters data) = specDomByMap data attrs := by
    rw [initCounters_eq data hids]
    have := foldl_mapAdd_map (recId data) (dominatedByCount data attrs)
      (List.range data.length) [] (by simp [keys]) hpw
    simpa [specDomByMap] using this
  have hsc : (List.range data.length).foldl
      (fun m i => mapAdd m (recId data i) (dominanceScoreCount data attrs i))
      (initCounters data) = specScoreMap data attrs := by
    rw [initCounters_eq data hids]
    have := foldl_mapAdd_map (recId data) (dominanceScoreCount data attrs)
      (List.range data.length) [] (by simp [keys]) hpw
    simpa [specScoreMap] using this
  simp only [hsky, hby, hsc]

theorem gpu_spec (elapsed : ℚ) (data : List DataPoint) (attrs : List AttributeConfig)
    (hd : ¬ data.length = 0) (ha : ¬ attrs.length = 0)
    (hids : (data.map DataPoint.id).Nodup) :
    computeSkylineWebGPU elapsed data attrs
      = ⟨specSkylineIds (data.map roundDP) attrs, specScoreMap (data.map roundDP) attrs,
         specDomByMap (data.map roundDP) attrs, elapsed, "WebGPU"⟩ := by
  rw [computeSkylineWebGPU, if_neg (by rw [not_or]; exact ⟨hd, ha⟩)]
  dsimp only
  have hidsD : ((data.map roundDP).map DataPoint.id).Nodup := by
    rw [ids_roundDP]
    exact hids
  have hpw : (List.range data.length).Pairwise
      fun i j => ¬ recId (data.map roundDP) i = recId (data.map roundDP) j := by
    have := pairwise_recId (data.map roundDP) hidsD
    rwa [List.length_map] at this
  have hcongr : (List.range data.length).foldl
      (gpuDecodeStep data (flatGet data attrs) attrs.length data.length) ([], [], [])
      = (List.range data.length).foldl
          (fun st i =>
            (if dominatedByCount (data.map roundDP) attrs i = 0
               then setAdd st.1 (recId (data.map roundDP) i) else st.1,
             mapSet st.2.1 (recId (data.map roundDP) i)
               (dominatedByCount (data.map roundDP) attrs i),
             mapSet st.2.2 (recId (data.map roundDP) i)
               (dominanceScoreCount (data.map roundDP) attrs i)))
          ([], [], []) := by
    refine foldl_invariant_congr _ _ (fun _ => True) _ _ trivial ?_
    intro st i _ hi
    have hi' : i < data.length := List.mem_range.mp hi
    refine ⟨?_, trivial⟩
    have hidEq : recId (data.map roundDP) i = (data.getD i default).id := by
      rw [recId, getD_map_lt roundDP data i hi', roundDP_id]
    rw [gpuDecodeStep]
    simp only [kernelMain_eq data attrs i hi', hidEq]
  rw [hcongr, foldl_prod3
    (fun s i => if dominatedByCount (data.map roundDP) attrs i = 0
       then setAdd s (recId (data.map roundDP) i) else s)
    (fun m i => mapSet m (recId (data.map roundDP) i)
       (dominatedByCount (data.map roundDP) attrs i))
    (fun m i => mapSet m (recId (data.map roundDP) i)
       (dominanceScoreCount (data.map roundDP) attrs i))
    (List.range data.length) [] [] []]
  have hsky : (List.range data.length).foldl
      (fun s i => if dominatedByCount (data.map roundDP) attrs i = 0
         then setAdd s (recId (data.map roundDP) i) else s) []
      = specSkylineIds (data.map roundDP) attrs := by
    rw [foldl_setAdd_filter (recId (data.map roundDP))
      (fun i => dominatedByCount (data.map roundDP) attrs i = 0)
      (List.range data.length) [] (by simp) hpw]
    rw [specSkylineIds, List.length_map, List.nil_append]
  have hby : (List.range data.length).foldl
      (fun m i => mapSet m (recId (data.map roundDP) i)
        (dominatedByCount (data.map roundDP) attrs i)) []
      = specDomByMap (data.map roundDP) attrs := by
    have := foldl_mapSet_append (recId (data.map roundDP))
      (dominatedByCount (data.map roundDP) attrs)
      (List.range data.length) [] (by simp [keys]) hpw
    simpa [specDomByMap, List.length_map] using this
  have hsc : (List.range data.length).foldl
      (fun m i => mapSet m (recId (data.map roundDP) i)
        (dominanceScoreCount (data.map roundDP) attrs i)) []
      = specScoreMap (data.map roundDP) attrs := by
    have := foldl_mapSet_append (recId (data.map roundDP))
      (dominanceScoreCount (data.map roundDP) attrs)
      (List.range data.length) [] (by simp [keys]) hpw
    simpa [specScoreMap, List.length_map] using this
  simp only [hsky, hby, hsc]

/-! Support lemmas for the score bound and the skyline membership criterion. -/

theorem countP_pair_le (P Q R : ℕ → Bool) :
    ∀ l : List ℕ, (∀ x ∈ l, ¬ (P x = true ∧ Q x = true)) →
      (∀ x ∈ l, P x = true → R x = true) → (∀ x ∈ l, Q x = true → R x = true) →
      l.countP P + l.countP Q ≤ l.countP R := by
  intro l
  induction l with
  | nil => intro _ _ _; simp
  | cons x xs ih =>
    intro hdisj hPR hQR
    have hx := ih (fun y hy => hdisj y (by simp [hy]))
      (fun y hy => hPR y (by simp [hy])) (fun y hy => hQR y (by simp [hy]))
    simp only [List.countP_cons]
    by_cases h1 : P x = true <;> by_cases h2 : Q x = true
    · exact absurd ⟨h1, h2⟩ (hdisj x (by simp))
    · have hr := hPR x (by simp) h1
      rw [if_pos h1, if_neg h2, if_pos hr]
      omega
    · have hr := hQR x (by simp) h2
      rw [if_neg h1, if_pos h2, if_pos hr]
      omega
    · rw [if_neg h1, if_neg h2]
      by_cases h3 : R x = true
      · rw [if_pos h3]
        omega
      · rw [if_neg h3]
        omega

theorem countP_ne_range (n i : ℕ) (hi : i < n) :
    (List.range n).countP (fun j => decide (¬ i = j)) = n - 1 := by
  induction n with
  | zero => simp at hi
  | succ n ih =>
    rw [List.range_succ, List.countP_append]
    by_cases hin : i < n
    · rw [ih hin]
      have hdn : (decide (¬ i = n)) = true := by
        simp only [decide_eq_true_eq]
        omega
      have hone : List.countP (fun j => decide (¬ i = j)) [n] = 1 := by
        simp [List.countP_cons]
        omega
      rw [hone]
      omega
    · have hieq : i = n := by omega
      subst hieq
      have hall : (List.range i).countP (fun j => decide (¬ i = j))
          = (List.range i).length :=
        List.countP_eq_length.mpr (by
          intro j hj
          have hji := List.mem_range.mp hj
          simp only [decide_eq_true_eq]
          omega)
      have hzero : List.countP (fun j => decide (¬ i = j)) [i] = 0 := by
        simp [List.countP_cons]
      rw [hall, hzero, List.length_range]
      omega

theorem counts_sum_le (data : List DataPoint) (attrs : List AttributeConfig)
    (i : ℕ) (hi : i < data.length) :
    dominanceScoreCount data attrs i + dominatedByCount data attrs i
      ≤ data.length - 1 := by
  rw [dominanceScoreCount, dominatedByCount]
  have hle := countP_pair_le
    (fun j => decide (¬ i = j) && dominates (data.getD i default) (data.getD j default) attrs)
    (fun j => decide (¬ i = j) && dominates (data.getD j default) (data.getD i default) attrs)
    (fun j => decide (¬ i = j))
    (List.range data.length) ?_ ?_ ?_
  · calc (List.range data.length).countP (fun j => decide (¬ i = j) &&
          dominates (data.getD i default) (data.getD j default) attrs)
          + (List.range data.length).countP (fun j => decide (¬ i = j) &&
          dominates (data.getD j default) (data.getD i default) attrs)
        ≤ (List.range data.length).countP (fun j => decide (¬ i = j)) := hle
      _ = data.length - 1 := countP_ne_range data.length i hi
  · intro j _
    rintro ⟨h1, h2⟩
    rw [Bool.and_eq_true] at h1 h2
    exact dominates_antisymm (data.getD i default) (data.getD j default) attrs ⟨h1.2, h2.2⟩
  · intro j _ h
    exact (Bool.and_eq_true _ _ |>.mp h).1
  · intro j _ h
    exact (Bool.and_eq_true _ _ |>.mp h).1

theorem lookup_map_pair (g : ℕ → String) (f : ℕ → ℕ) :
    ∀ (l : List ℕ), l.Pairwise (fun i j => ¬ g i = g j) →
      ∀ i₀ ∈ l, List.lookup (g i₀) (l.map fun i => (g i, f i)) = some (f i₀) := by
  intro l
  induction l with
  | nil => intro _ i₀ h; simp at h
  | cons x xs ih =>
    intro hpw i₀ hi₀
    rcases List.pairwise_cons.mp hpw with ⟨hhead, htail⟩
    rcases List.mem_cons.mp hi₀ with rfl | hmem
    · simp [List.lookup]
    · have hne : ¬ (g i₀ == g x) = true := by
        simp
        exact fun he => hhead i₀ hmem he.symm
      simp only [List.map_cons, List.lookup, hne]
      exact ih htail i₀ hmem

theorem lookup_specDomByMap (data : List DataPoint) (attrs : List AttributeConfig)
    (hids : (data.map DataPoint.id).Nodup) (i₀ : ℕ) (hi : i₀ < data.length) :
    List.lookup (recId data i₀) (specDomByMap data attrs)
      = some (dominatedByCount data attrs i₀) := by
  exact lookup_map_pair (recId data) (dominatedByCount data attrs)
    (List.range data.length) (pairwise_recId data hids) i₀ (List.mem_range.mpr hi)

theorem lookup_specScoreMap (data : List DataPoint) (attrs : List AttributeConfig)
    (hids : (data.map DataPoint.id).Nodup) (i₀ : ℕ) (hi : i₀ < data.length) :
    List.lookup (recId data i₀) (specScoreMap data attrs)
      = some (dominanceScoreCount data attrs i₀) := by
  exact lookup_map_pair (recId data) (dominanceScoreCount data attrs)
    (List.range data.length) (pairwise_recId data hids) i₀ (List.mem_range.mpr hi)

theorem mem_specSkylineIds (data : List DataPoint) (attrs : List AttributeConfig)
    (hids : (data.map DataPoint.id).Nodup) (i₀ : ℕ) (hi : i₀ < data.length) :
    recId data i₀ ∈ specSkylineIds data attrs
      ↔ dominatedByCount data attrs i₀ = 0 := by
  have hpw := pairwise_recId data hids
  rw [specSkylineIds]
  constructor
  · intro h
    obtain ⟨i, hif, heq⟩ := List.mem_map.mp h
    have hmemf := List.mem_filter.mp hif
    have hcnt : dominatedByCount data attrs i = 0 := by
      simpa using hmemf.2
    have hieq : i = i₀ := by
      by_contra hne
      have hir : i ∈ List.range data.length := hmemf.1
      have hi₀r : i₀ ∈ List.range data.length := List.mem_range.mpr hi
      have hsymm : Symmetric fun i j => ¬ recId data i = recId data j :=
        fun a b hab hc => hab hc.symm
      exact List.Pairwise.forall hsymm hpw hir hi₀r hne heq
    rwa [hieq] at hcnt
  · intro h
    refine List.mem_map.mpr ⟨i₀, List.mem_filter.mpr ⟨List.mem_range.mpr hi, ?_⟩, rfl⟩
    simpa using h

theorem mem_data_index (data : List DataPoint) (p : DataPoint) (hp : p ∈ data) :
    ∃ i₀, i₀ < data.length ∧ data.getD i₀ default = p := by
  obtain ⟨i, hi, heq⟩ := List.mem_iff_getElem.mp hp
  exact ⟨i, hi, by rwa [List.getD_eq_getElem _ _ hi]⟩

/-! Rounding congruence: when every active attribute value is a binary32
fixed point, the kernel sees the same values as the serial backend. -/

theorem dominates_congr (a a' b b' : DataPoint) (attrs : List AttributeConfig)
    (hA : ∀ attr ∈ attrs, a.get attr.key = a'.get attr.key)
    (hB : ∀ attr ∈ attrs, b.get attr.key = b'.get attr.key) :
    dominates a b attrs = dominates a' b' attrs := by
  rw [dominates_eq, dominates_eq]
  apply bool_eq_of_iff
  simp only [Bool.and_eq_true, List.all_eq_true, List.any_eq_true,
    Bool.not_eq_true', decide_eq_false_iff_not, decide_eq_true_eq, gt_iff_lt]
  constructor
  · rintro ⟨h1, attr, hmem, h2⟩
    refine ⟨fun x hx => ?_, attr, hmem, ?_⟩
    · rw [← hA x hx, ← hB x hx]
      exact h1 x hx
    · rw [← hA attr hmem, ← hB attr hmem]
      exact h2
  · rintro ⟨h1, attr, hmem, h2⟩
    refine ⟨fun x hx => ?_, attr, hmem, ?_⟩
    · rw [hA x hx, hB x hx]
      exact h1 x hx
    · rw [hA attr hmem, hB attr hmem]
      exact h2

theorem roundDP_getD_eq (data : List DataPoint) (attrs : List AttributeConfig)
    (hrep : ∀ p ∈ data, ∀ attr ∈ attrs, roundF32 (p.get attr.key) = p.get attr.key)
    (j : ℕ) (hj : j < data.length) (attr : AttributeConfig) (hattr : attr ∈ attrs) :
    ((data.map roundDP).getD j default).get attr.key
      = (data.getD j default).get attr.key := by
  rw [getD_map_lt roundDP data j hj, roundDP_get]
  apply hrep
  · rw [List.getD_eq_getElem _ _ hj]
    exact List.getElem_mem hj
  · exact hattr

theorem dominatedByCount_roundDP (data : List DataPoint) (attrs : List AttributeConfig)
    (hrep : ∀ p ∈ data, ∀ attr ∈ attrs, roundF32 (p.get attr.key) = p.get attr.key)
    (i : ℕ) (hi : i < data.length) :
    dominatedByCount (data.map roundDP) attrs i = dominatedByCount data attrs i := by
  rw [dominatedByCount, dominatedByCount, List.length_map]
  apply List.countP_congr
  intro j hj
  have hj' : j < data.length := List.mem_range.mp hj
  have hdom : dominates ((data.map roundDP).getD j default)
        ((data.map roundDP).getD i default) attrs
      = dominates (data.getD j default) (data.getD i default) attrs :=
    dominates_congr _ _ _ _ attrs
      (fun attr ha => roundDP_getD_eq data attrs hrep j hj' attr ha)
      (fun attr ha => roundDP_getD_eq data attrs hrep i hi attr ha)
  rw [hdom]

theorem dominanceScoreCount_roundDP (data : List DataPoint) (attrs : List AttributeConfig)
    (hrep : ∀ p ∈ data, ∀ attr ∈ attrs, roundF32 (p.get attr.key) = p.get attr.key)
    (i : ℕ) (hi : i < data.length) :
    dominanceScoreCount (data.map roundDP) attrs i = dominanceScoreCount data attrs i := by
  rw [dominanceScoreCount, dominanceScoreCount, List.length_map]
  apply List.countP_congr
  intro j hj
  have hj' : j < data.length := List.mem_range.mp hj
  have hdom : dominates ((data.map roundDP).getD i default)
        ((data.map roundDP).getD j default) attrs
      = dominates (data.getD i default) (data.getD j default) attrs :=
    dominates_congr _ _ _ _ attrs
      (fun attr ha => roundDP_getD_eq data attrs hrep i hi attr ha)
      (fun attr ha => roundDP_getD_eq data attrs hrep j hj' attr ha)
  rw [hdom]

theorem specSkylineIds_roundDP (data : List DataPoint) (attrs : List AttributeConfig)
    (hrep : ∀ p ∈ data, ∀ attr ∈ attrs, roundF32 (p.get attr.key) = p.get attr.key) :
    specSkylineIds (data.map roundDP) attrs = specSkylineIds data attrs := by
  rw [specSkylineIds, specSkylineIds, List.length_map]
  have hfilter : (List.range data.length).filter
      (fun i => decide (dominatedByCount (data.map roundDP) attrs i = 0))
      = (List.range data.length).filter
      (fun i => decide (dominatedByCount data attrs i = 0)) := by
    apply List.filter_congr
    intro i hi
    rw [dominatedByCount_roundDP data attrs hrep i (List.mem_range.mp hi)]
  rw [hfilter]
  apply List.map_congr_left
  intro i hi
  have hi' : i < data.length := List.mem_range.mp (List.mem_filter.mp hi).1
  rw [recId, recId, getD_map_lt roundDP data i hi', roundDP_id]

theorem specDomByMap_roundDP (data : List DataPoint) (attrs : List AttributeConfig)
    (hrep : ∀ p ∈ data, ∀ attr ∈ attrs, roundF32 (p.get attr.key) = p.get attr.key) :
    specDomByMap (data.map roundDP) attrs = specDomByMap data attrs := by
  rw [specDomByMap, specDomByMap, List.length_map]
  apply List.map_congr_left
  intro i hi
  have hi' : i < data.length := List.mem_range.mp hi
  rw [recId, recId, getD_map_lt roundDP data i hi', roundDP_id,
    dominatedByCount_roundDP data attrs hrep i hi']

theorem specScoreMap_roundDP (data : List DataPoint) (attrs : List AttributeConfig)
    (hrep : ∀ p ∈ data, ∀ attr ∈ attrs, roundF32 (p.get attr.key) = p.get attr.key) :
    specScoreMap (data.map roundDP) attrs = specScoreMap data attrs := by
  rw [specScoreMap, specScoreMap, List.length_map]
  apply List.map_congr_left
  intro i hi
  have hi' : i < data.length := List.mem_range.mp hi
  rw [recId, recId, getD_map_lt roundDP data i hi', roundDP_id,
    dominanceScoreCount_roundDP data attrs hrep i hi']

/-! The claims. -/

set_option maxRecDepth 10000

/-- C1 counterexample: the claim as stated fails on the code because the
parallel backend marshals values through a Float32Array.  The integers
16777216 (2^24) and 16777217 (2^24 + 1) are distinct JS numbers, so on the
serial path the second record strictly dominates the first; both round to the
same binary32 value 16777216, so the kernel sees two equal rows and reports no
dominance in either direction: the two backends return different skylineIds,
dominanceScores and dominatedBy maps on this input. -/
theorem claim_C1_counterexample :
    ¬ ((computeSkylineCPU 0 [⟨"P", "P", [("v", 16777216)]⟩, ⟨"Q", "Q", [("v", 16777217)]⟩]
          [⟨"v", "V", 0, 1, 1, "", 0⟩]).skylineIds
        = (computeSkylineWebGPU 0 [⟨"P", "P", [("v", 16777216)]⟩, ⟨"Q", "Q", [("v", 16777217)]⟩]
          [⟨"v", "V", 0, 1, 1, "", 0⟩]).skylineIds ∧
      (computeSkylineCPU 0 [⟨"P", "P", [("v", 16777216)]⟩, ⟨"Q", "Q", [("v", 16777217)]⟩]
          [⟨"v", "V", 0, 1, 1, "", 0⟩]).dominanceScores
        = (computeSkylineWebGPU 0 [⟨"P", "P", [("v", 16777216)]⟩, ⟨"Q", "Q", [("v", 16777217)]⟩]
          [⟨"v", "V", 0, 1, 1, "", 0⟩]).dominanceScores ∧
      (computeSkylineCPU 0 [⟨"P", "P", [("v", 16777216)]⟩, ⟨"Q", "Q", [("v", 16777217)]⟩]
          [⟨"v", "V", 0, 1, 1, "", 0⟩]).dominatedBy
        = (computeSkylineWebGPU 0 [⟨"P", "P", [("v", 16777216)]⟩, ⟨"Q", "Q", [("v", 16777217)]⟩]
          [⟨"v", "V", 0, 1, 1, "", 0⟩]).dominatedBy) := by
  decide

/-- C1 amended: for every finite record list with unique ids (required by the
data model) and every non-empty active attribute list whose values are all
exactly representable as finite binary32 values (fixed by the Float32Array
rounding and inside the finite binary32 range, so that the marshalling of the
parallel backend is lossless), the serial backend and the parallel backend
produce identical skylineIds, dominanceScores, and dominatedBy maps;
computation time and backend tag are excluded from the comparison. -/
theorem claim_C1_backend_agreement_f32 (elapsedC elapsedG : ℚ) (data : List DataPoint)
    (attrs : List AttributeConfig) (hids : (data.map DataPoint.id).Nodup)
    (hattrs : ¬ attrs = [])
    (hrep : ∀ p ∈ data, ∀ attr ∈ attrs, roundF32 (p.get attr.key) = p.get attr.key)
    (hlo : ∀ p ∈ data, ∀ attr ∈ attrs, floatMin32 ≤ p.get attr.key)
    (hhi : ∀ p ∈ data, ∀ attr ∈ attrs, p.get attr.key ≤ floatMax32) :
    (computeSkylineCPU elapsedC data attrs).skylineIds
      = (computeSkylineWebGPU elapsedG data attrs).skylineIds ∧
    (computeSkylineCPU elapsedC data attrs).dominanceScores
      = (computeSkylineWebGPU elapsedG data attrs).dominanceScores ∧
    (computeSkylineCPU elapsedC data attrs).dominatedBy
      = (computeSkylineWebGPU elapsedG data attrs).dominatedBy := by
  by_cases hd : data.length = 0
  · have hdata : data = [] := List.length_eq_zero.mp hd
    subst hdata
    exact ⟨rfl, rfl, rfl⟩
  · have ha : ¬ attrs.length = 0 := fun h => hattrs (List.length_eq_zero.mp h)
    rw [cpu_spec elapsedC data attrs hd hids, gpu_spec elapsedG data attrs hd ha hids]
    exact ⟨(specSkylineIds_roundDP data attrs hrep).symm,
      (specScoreMap_roundDP data attrs hrep).symm,
      (specDomByMap_roundDP data attrs hrep).symm⟩

theorem claim_C1_witness :
    ((([⟨"X", "X", [("v", 1)]⟩, ⟨"Y", "Y", [("v", 2)]⟩] : List DataPoint).map
        DataPoint.id).Nodup ∧
      ¬ ([⟨"v", "V", 0, 10, 1, "", 0⟩] : List AttributeConfig) = [] ∧
      (∀ p ∈ ([⟨"X", "X", [("v", 1)]⟩, ⟨"Y", "Y", [("v", 2)]⟩] : List DataPoint),
        ∀ attr ∈ ([⟨"v", "V", 0, 10, 1, "", 0⟩] : List AttributeConfig),
          roundF32 (p.get attr.key) = p.get attr.key) ∧
      (∀ p ∈ ([⟨"X", "X", [("v", 1)]⟩, ⟨"Y", "Y", [("v", 2)]⟩] : List DataPoint),
        ∀ attr ∈ ([⟨"v", "V", 0, 10, 1, "", 0⟩] : List AttributeConfig),
          floatMin32 ≤ p.get attr.key) ∧
      (∀ p ∈ ([⟨"X", "X", [("v", 1)]⟩, ⟨"Y", "Y", [("v", 2)]⟩] : List DataPoint),
        ∀ attr ∈ ([⟨"v", "V", 0, 10, 1, "", 0⟩] : List AttributeConfig),
          p.get attr.key ≤ floatMax32)) ∧
    ((computeSkylineCPU 0 [⟨"X", "X", [("v", 1)]⟩, ⟨"Y", "Y", [("v", 2)]⟩]
        [⟨"v", "V", 0, 10, 1, "", 0⟩]).skylineIds
      = (computeSkylineWebGPU 7 [⟨"X", "X", [("v", 1)]⟩, ⟨"Y", "Y", [("v", 2)]⟩]
        [⟨"v", "V", 0, 10, 1, "", 0⟩]).skylineIds ∧
    (computeSkylineCPU 0 [⟨"X", "X", [("v", 1)]⟩, ⟨"Y", "Y", [("v", 2)]⟩]
        [⟨"v", "V", 0, 10, 1, "", 0⟩]).dominanceScores
      = (computeSkylineWebGPU 7 [⟨"X", "X", [("v", 1)]⟩, ⟨"Y", "Y", [("v", 2)]⟩]
        [⟨"v", "V", 0, 10, 1, "", 0⟩]).dominanceScores ∧
    (computeSkylineCPU 0 [⟨"X", "X", [("v", 1)]⟩, ⟨"Y", "Y", [("v", 2)]⟩]
        [⟨"v", "V", 0, 10, 1, "", 0⟩]).dominatedBy
      = (computeSkylineWebGPU 7 [⟨"X", "X", [("v", 1)]⟩, ⟨"Y", "Y", [("v", 2)]⟩]
        [⟨"v", "V", 0, 10, 1, "", 0⟩]).dominatedBy) :=
  ⟨⟨by decide, by decide, by decide, by decide, by decide⟩,
    claim_C1_backend_agreement_f32 0 7 [⟨"X", "X", [("v", 1)]⟩, ⟨"Y", "Y", [("v", 2)]⟩]
      [⟨"v", "V", 0, 10, 1, "", 0⟩] (by decide) (by decide) (by decide) (by decide)
      (by decide)⟩

/-- C2: in the result of either backend, a record of the input (ids unique per
the data model) carries a dominated-by count of zero exactly when its id is in
the skyline id set. -/
theorem claim_C2_skyline_iff_zero (elapsed : ℚ) (data : List DataPoint)
    (attrs : List AttributeConfig) (p : DataPoint) (hp : p ∈ data)
    (hids : (data.map DataPoint.id).Nodup) :
    (List.lookup p.id (computeSkylineCPU elapsed data attrs).dominatedBy = some 0
      ↔ p.id ∈ (computeSkylineCPU elapsed data attrs).skylineIds) ∧
    (List.lookup p.id (computeSkylineWebGPU elapsed data attrs).dominatedBy = some 0
      ↔ p.id ∈ (computeSkylineWebGPU elapsed data attrs).skylineIds) := by
  obtain ⟨i₀, hi₀, hpe⟩ := mem_data_index data p hp
  have hd : ¬ data.length = 0 := by
    intro h
    rw [List.length_eq_zero] at h
    subst h
    simp at hp
  have hfact : List.lookup p.id (specDomByMap data attrs) = some 0
      ↔ p.id ∈ specSkylineIds data attrs := by
    have hpid : p.id = recId data i₀ := by rw [recId, hpe]
    rw [hpid, lookup_specDomByMap data attrs hids i₀ hi₀,
      mem_specSkylineIds data attrs hids i₀ hi₀]
    constructor
    · intro h
      exact Option.some.inj h
    · intro h
      rw [h]
  constructor
  · rw [cpu_spec elapsed data attrs hd hids]
    exact hfact
  · by_cases ha : attrs.length = 0
    · rw [computeSkylineWebGPU, if_pos (Or.inr ha)]
      constructor
      · intro h
        simp [List.lookup] at h
      · intro h
        simp at h
    · rw [gpu_spec elapsed data attrs hd ha hids]
      have hidsD : ((data.map roundDP).map DataPoint.id).Nodup := by
        rw [ids_roundDP]
        exact hids
      have hiD : i₀ < (data.map roundDP).length := by simpa using hi₀
      have hpidD : p.id = recId (data.map roundDP) i₀ := by
        rw [recId, getD_map_lt roundDP data i₀ hi₀, roundDP_id, hpe]
      rw [hpidD, lookup_specDomByMap (data.map roundDP) attrs hidsD i₀ hiD,
        mem_specSkylineIds (data.map roundDP) attrs hidsD i₀ hiD]
      constructor
      · intro h
        exact Option.some.inj h
      · intro h
        rw [h]

theorem claim_C2_witness :
    ((⟨"X", "X", [("v", 1)]⟩ : DataPoint) ∈
        ([⟨"X", "X", [("v", 1)]⟩, ⟨"Y", "Y", [("v", 2)]⟩] : List DataPoint) ∧
      (([⟨"X", "X", [("v", 1)]⟩, ⟨"Y", "Y", [("v", 2)]⟩] : List DataPoint).map
        DataPoint.id).Nodup) ∧
    ((List.lookup "X" (computeSkylineCPU 0
        [⟨"X", "X", [("v", 1)]⟩, ⟨"Y", "Y", [("v", 2)]⟩]
        [⟨"v", "V", 0, 10, 1, "", 0⟩]).dominatedBy = some 0
      ↔ "X" ∈ (computeSkylineCPU 0
        [⟨"X", "X", [("v", 1)]⟩, ⟨"Y", "Y", [("v", 2)]⟩]
        [⟨"v", "V", 0, 10, 1, "", 0⟩]).skylineIds) ∧
    (List.lookup "X" (computeSkylineWebGPU 0
        [⟨"X", "X", [("v", 1)]⟩, ⟨"Y", "Y", [("v", 2)]⟩]
        [⟨"v", "V", 0, 10, 1, "", 0⟩]).dominatedBy = some 0
      ↔ "X" ∈ (computeSkylineWebGPU 0
        [⟨"X", "X", [("v", 1)]⟩, ⟨"Y", "Y", [("v", 2)]⟩]
        [⟨"v", "V", 0, 10, 1, "", 0⟩]).skylineIds)) :=
  ⟨⟨by decide, by decide⟩,
    claim_C2_skyline_iff_zero 0 [⟨"X", "X", [("v", 1)]⟩, ⟨"Y", "Y", [("v", 2)]⟩]
      [⟨"v", "V", 0, 10, 1, "", 0⟩] ⟨"X", "X", [("v", 1)]⟩ (by decide) (by decide)⟩

/-- C3: in the result of either backend, for every input record p of an
N-record list with unique ids, dominanceScore[p] + dominatedBy[p] <= N - 1. -/
theorem claim_C3_score_bound (elapsed : ℚ) (data : List DataPoint)
    (attrs : List AttributeConfig) (p : DataPoint) (hp : p ∈ data)
    (hids : (data.map DataPoint.id).Nodup) :
    mapGet (computeSkylineCPU elapsed data attrs).dominanceScores p.id
      + mapGet (computeSkylineCPU elapsed data attrs).dominatedBy p.id
      ≤ data.length - 1 ∧
    mapGet (computeSkylineWebGPU elapsed data attrs).dominanceScores p.id
      + mapGet (computeSkylineWebGPU elapsed data attrs).dominatedBy p.id
      ≤ data.length - 1 := by
  obtain ⟨i₀, hi₀, hpe⟩ := mem_data_index data p hp
  have hd : ¬ data.length = 0 := by
    intro h
    rw [List.length_eq_zero] at h
    subst h
    simp at hp
  have hpid : p.id = recId data i₀ := by rw [recId, hpe]
  have hspec : mapGet (specScoreMap data attrs) p.id
      + mapGet (specDomByMap data attrs) p.id ≤ data.length - 1 := by
    rw [hpid, mapGet, mapGet, lookup_specScoreMap data attrs hids i₀ hi₀,
      lookup_specDomByMap data attrs hids i₀ hi₀]
    simpa using counts_sum_le data attrs i₀ hi₀
  constructor
  · rw [cpu_spec elapsed data attrs hd hids]
    exact hspec
  · by_cases ha : attrs.length = 0
    · rw [computeSkylineWebGPU, if_pos (Or.inr ha)]
      simp [mapGet, List.lookup]
    · rw [gpu_spec elapsed data attrs hd ha hids]
      have hidsD : ((data.map roundDP).map DataPoint.id).Nodup := by
        rw [ids_roundDP]
        exact hids
      have hiD : i₀ < (data.map roundDP).length := by simpa using hi₀
      have hpidD : p.id = recId (data.map roundDP) i₀ := by
        rw [recId, getD_map_lt roundDP data i₀ hi₀, roundDP_id, hpe]
      have hb := counts_sum_le (data.map roundDP) attrs i₀ hiD
      rw [hpidD, mapGet, mapGet,
        lookup_specScoreMap (data.map roundDP) attrs hidsD i₀ hiD,
        lookup_specDomByMap (data.map roundDP) attrs hidsD i₀ hiD]
      simpa using hb

theorem claim_C3_witness :
    ((⟨"X", "X", [("v", 1)]⟩ : DataPoint) ∈
        ([⟨"X", "X", [("v", 1)]⟩, ⟨"Y", "Y", [("v", 2)]⟩] : List DataPoint) ∧
      (([⟨"X", "X", [("v", 1)]⟩, ⟨"Y", "Y", [("v", 2)]⟩] : List DataPoint).map
        DataPoint.id).Nodup) ∧
    (mapGet (computeSkylineCPU 0 [⟨"X", "X", [("v", 1)]⟩, ⟨"Y", "Y", [("v", 2)]⟩]
        [⟨"v", "V", 0, 10, 1, "", 0⟩]).dominanceScores "X"
      + mapGet (computeSkylineCPU 0 [⟨"X", "X", [("v", 1)]⟩, ⟨"Y", "Y", [("v", 2)]⟩]
        [⟨"v", "V", 0, 10, 1, "", 0⟩]).dominatedBy "X"
      ≤ ([⟨"X", "X", [("v", 1)]⟩, ⟨"Y", "Y", [("v", 2)]⟩] : List DataPoint).length - 1 ∧
    mapGet (computeSkylineWebGPU 0 [⟨"X", "X", [("v", 1)]⟩, ⟨"Y", "Y", [("v", 2)]⟩]
        [⟨"v", "V", 0, 10, 1, "", 0⟩]).dominanceScores "X"
      + mapGet (computeSkylineWebGPU 0 [⟨"X", "X", [("v", 1)]⟩, ⟨"Y", "Y", [("v", 2)]⟩]
        [⟨"v", "V", 0, 10, 1, "", 0⟩]).dominatedBy "X"
      ≤ ([⟨"X", "X", [("v", 1)]⟩, ⟨"Y", "Y", [("v", 2)]⟩] : List DataPoint).length - 1) :=
  ⟨⟨by decide, by decide⟩,
    claim_C3_score_bound 0 [⟨"X", "X", [("v", 1)]⟩, ⟨"Y", "Y", [("v", 2)]⟩]
      [⟨"v", "V", 0, 10, 1, "", 0⟩] ⟨"X", "X", [("v", 1)]⟩ (by decide) (by decide)⟩

/-- C4: the dominance predicate is irreflexive and antisymmetric, and two
records equal on all active attributes do not dominate each other. -/
theorem claim_C4_partial_order (attrs : List AttributeConfig) (a b : DataPoint) :
    dominates a a attrs = false ∧
    ¬ (dominates a b attrs = true ∧ dominates b a attrs = true) ∧
    ((∀ attr ∈ attrs, a.get attr.key = b.get attr.key) →
      dominates a b attrs = false ∧ dominates b a attrs = false) :=
  ⟨dominates_irrefl a attrs, dominates_antisymm a b attrs,
    dominates_of_eq_vals a b attrs⟩

theorem claim_C4_witness :
    dominates ⟨"X", "X", [("v", 1)]⟩ ⟨"X", "X", [("v", 1)]⟩
        [⟨"v", "V", 0, 10, 1, "", 0⟩] = false ∧
    ¬ (dominates ⟨"X", "X", [("v", 1)]⟩ ⟨"Y", "Y", [("v", 2)]⟩
        [⟨"v", "V", 0, 10, 1, "", 0⟩] = true ∧
       dominates ⟨"Y", "Y", [("v", 2)]⟩ ⟨"X", "X", [("v", 1)]⟩
        [⟨"v", "V", 0, 10, 1, "", 0⟩] = true) ∧
    (dominates ⟨"X", "X", [("v", 1)]⟩ ⟨"Z", "Z", [("v", 1)]⟩
        [⟨"v", "V", 0, 10, 1, "", 0⟩] = false ∧
     dominates ⟨"Z", "Z", [("v", 1)]⟩ ⟨"X", "X", [("v", 1)]⟩
        [⟨"v", "V", 0, 10, 1, "", 0⟩] = false) :=
  ⟨(claim_C4_partial_order [⟨"v", "V", 0, 10, 1, "", 0⟩] ⟨"X", "X", [("v", 1)]⟩
      ⟨"Y", "Y", [("v", 2)]⟩).1,
   (claim_C4_partial_order [⟨"v", "V", 0, 10, 1, "", 0⟩] ⟨"X", "X", [("v", 1)]⟩
      ⟨"Y", "Y", [("v", 2)]⟩).2.1,
   (claim_C4_partial_order [⟨"v", "V", 0, 10, 1, "", 0⟩] ⟨"X", "X", [("v", 1)]⟩
      ⟨"Z", "Z", [("v", 1)]⟩).2.2 (by decide)⟩

/-- C5 counterexample: the source caches the rejected acquisition promise.
After a first call whose acquisition attempt fails, a second call whose
attempt would succeed still returns the cached failure instead of
re-attempting, so the claim "a failed acquisition attempt is not cached"
is false on the code. -/
theorem claim_C5_counterexample :
    (getGPUState (getGPUState none (Except.error "WebGPU unavailable")).2
        (Except.ok ⟨0⟩)).1 = Except.error "WebGPU unavailable" ∧
    ¬ (getGPUState (getGPUState none (Except.error "WebGPU unavailable")).2
        (Except.ok ⟨0⟩)).1 = Except.ok ⟨0⟩ :=
  ⟨rfl, fun h => Except.noConfusion h⟩

/-- C5 amended: the first acquisition attempt outcome, success or failure, is
stored in the module-level cache and every subsequent call returns the stored
outcome without retrying. -/
theorem claim_C5_failure_cached (attempt later : GPUStatePromise) :
    getGPUState none attempt = (attempt, some attempt) ∧
    getGPUState (some attempt) later = (attempt, some attempt) :=
  ⟨rfl, rfl⟩

/-- C6: readback mapping is attempted at most twice per call; a first failure
is followed by an unmap and exactly one retry; if the retry succeeds the
section succeeds, and a second failure propagates that failure (no result for
the call, no further retries). -/
theorem claim_C6_map_retry (outcomes : ℕ → Except String Unit) :
    (mapReadback outcomes).1.count ReadbackEvent.mapAttempt ≤ 2 ∧
    (∀ u : Unit, outcomes 0 = Except.ok u →
      mapReadback outcomes = ([ReadbackEvent.mapAttempt], Except.ok ())) ∧
    (∀ e1, outcomes 0 = Except.error e1 → ∀ u : Unit, outcomes 1 = Except.ok u →
      mapReadback outcomes = ([ReadbackEvent.mapAttempt, ReadbackEvent.unmapCall,
        ReadbackEvent.mapAttempt], Except.ok ())) ∧
    (∀ e1 e2, outcomes 0 = Except.error e1 → outcomes 1 = Except.error e2 →
      mapReadback outcomes = ([ReadbackEvent.mapAttempt, ReadbackEvent.unmapCall,
        ReadbackEvent.mapAttempt], Except.error e2)) := by
  refine ⟨?_, ?_, ?_, ?_⟩
  · cases h0 : outcomes 0 with
    | error e =>
      cases h1 : outcomes 1 with
      | error e2 => simp [mapReadback, h0, h1, List.count_cons]
      | ok u => simp [mapReadback, h0, h1, List.count_cons]
    | ok u => simp [mapReadback, h0, List.count_cons]
  · intro u h0
    simp [mapReadback, h0]
  · intro e1 h0 u h1
    simp [mapReadback, h0, h1]
  · intro e1 e2 h0 h1
    simp [mapReadback, h0, h1]

theorem claim_C6_witness :
    ((fun k => if k = 0 then Except.error "m1" else Except.error "m2") 0
        = (Except.error "m1" : Except String Unit) ∧
      (fun k => if k = 0 then Except.error "m1" else Except.error "m2") 1
        = (Except.error "m2" : Except String Unit)) ∧
    mapReadback (fun k => if k = 0 then Except.error "m1" else Except.error "m2")
      = ([ReadbackEvent.mapAttempt, ReadbackEvent.unmapCall, ReadbackEvent.mapAttempt],
         Except.error "m2") :=
  ⟨⟨rfl, rfl⟩,
    (claim_C6_map_retry (fun k => if k = 0 then Except.error "m1"
      else Except.error "m2")).2.2.2 "m1" "m2" rfl rfl⟩

/-- C7: on records A{pace:90,shoot:80}, B{pace:80,shoot:90}, C{pace:70,shoot:70}
with active attributes [pace, shoot], both backends return skylineIds = [A, B],
dominanceScores = {A:1, B:1, C:0}, and dominatedBy = {A:0, B:0, C:2}. -/
theorem claim_C7_worked_example :
    (computeSkylineCPU 0 [⟨"A", "A", [("pace", 90), ("shoot", 80)]⟩,
        ⟨"B", "B", [("pace", 80), ("shoot", 90)]⟩,
        ⟨"C", "C", [("pace", 70), ("shoot", 70)]⟩]
        [⟨"pace", "Pace", 0, 100, 1, "", 0⟩,
         ⟨"shoot", "Shoot", 0, 100, 1, "", 0⟩]).skylineIds = ["A", "B"] ∧
    (computeSkylineCPU 0 [⟨"A", "A", [("pace", 90), ("shoot", 80)]⟩,
        ⟨"B", "B", [("pace", 80), ("shoot", 90)]⟩,
        ⟨"C", "C", [("pace", 70), ("shoot", 70)]⟩]
        [⟨"pace", "Pace", 0, 100, 1, "", 0⟩,
         ⟨"shoot", "Shoot", 0, 100, 1, "", 0⟩]).dominanceScores
      = [("A", 1), ("B", 1), ("C", 0)] ∧
    (computeSkylineCPU 0 [⟨"A", "A", [("pace", 90), ("shoot", 80)]⟩,
        ⟨"B", "B", [("pace", 80), ("shoot", 90)]⟩,
        ⟨"C", "C", [("pace", 70), ("shoot", 70)]⟩]
        [⟨"pace", "Pace", 0, 100, 1, "", 0⟩,
         ⟨"shoot", "Shoot", 0, 100, 1, "", 0⟩]).dominatedBy
      = [("A", 0), ("B", 0), ("C", 2)] ∧
    (computeSkylineWebGPU 0 [⟨"A", "A", [("pace", 90), ("shoot", 80)]⟩,
        ⟨"B", "B", [("pace", 80), ("shoot", 90)]⟩,
        ⟨"C", "C", [("pace", 70), ("shoot", 70)]⟩]
        [⟨"pace", "Pace", 0, 100, 1, "", 0⟩,
         ⟨"shoot", "Shoot", 0, 100, 1, "", 0⟩]).skylineIds = ["A", "B"] ∧
    (computeSkylineWebGPU 0 [⟨"A", "A", [("pace", 90), ("shoot", 80)]⟩,
        ⟨"B", "B", [("pace", 80), ("shoot", 90)]⟩,
        ⟨"C", "C", [("pace", 70), ("shoot", 70)]⟩]
        [⟨"pace", "Pace", 0, 100, 1, "", 0⟩,
         ⟨"shoot", "Shoot", 0, 100, 1, "", 0⟩]).dominanceScores
      = [("A", 1), ("B", 1), ("C", 0)] ∧
    (computeSkylineWebGPU 0 [⟨"A", "A", [("pace", 90), ("shoot", 80)]⟩,
        ⟨"B", "B", [("pace", 80), ("shoot", 90)]⟩,
        ⟨"C", "C", [("pace", 70), ("shoot", 70)]⟩]
        [⟨"pace", "Pace", 0, 100, 1, "", 0⟩,
         ⟨"shoot", "Shoot", 0, 100, 1, "", 0⟩]).dominatedBy
      = [("A", 0), ("B", 0), ("C", 2)] := by
  decide

/-- C8: both backends return the empty result on empty input without error,
the serial backend hardcoding zero elapsed time; on a single record with a
non-empty active attribute list, that record is the sole skyline member with
dominance score 0 and dominated-by count 0 in both backends. -/
theorem claim_C8_boundary (elapsed : ℚ) (p : DataPoint) (attrs : List AttributeConfig) :
    computeSkylineCPU elapsed [] attrs = ⟨[], [], [], 0, "CPU"⟩ ∧
    computeSkylineWebGPU elapsed [] attrs = ⟨[], [], [], elapsed, "WebGPU"⟩ ∧
    (¬ attrs = [] →
      (computeSkylineCPU elapsed [p] attrs).skylineIds = [p.id] ∧
      (computeSkylineCPU elapsed [p] attrs).dominanceScores = [(p.id, 0)] ∧
      (computeSkylineCPU elapsed [p] attrs).dominatedBy = [(p.id, 0)] ∧
      (computeSkylineWebGPU elapsed [p] attrs).skylineIds = [p.id] ∧
      (computeSkylineWebGPU elapsed [p] attrs).dominanceScores = [(p.id, 0)] ∧
      (computeSkylineWebGPU elapsed [p] attrs).dominatedBy = [(p.id, 0)]) := by
  refine ⟨rfl, rfl, ?_⟩
  intro ha
  have ha' : ¬ attrs.length = 0 := fun h => ha (List.length_eq_zero.mp h)
  have hd : ¬ ([p] : List DataPoint).length = 0 := by simp
  have hids : (([p] : List DataPoint).map DataPoint.id).Nodup := by simp
  rw [cpu_spec elapsed [p] attrs hd hids, gpu_spec elapsed [p] attrs hd ha' hids]
  exact ⟨rfl, rfl, rfl, rfl, rfl, rfl⟩

theorem claim_C8_witness :
    ¬ ([⟨"v", "V", 0, 10, 1, "", 0⟩] : List AttributeConfig) = [] ∧
    computeSkylineCPU 3 [] [⟨"v", "V", 0, 10, 1, "", 0⟩] = ⟨[], [], [], 0, "CPU"⟩ ∧
    (computeSkylineCPU 3 [⟨"P", "P", [("v", 5)]⟩]
      [⟨"v", "V", 0, 10, 1, "", 0⟩]).skylineIds = ["P"] ∧
    (computeSkylineWebGPU 3 [⟨"P", "P", [("v", 5)]⟩]
      [⟨"v", "V", 0, 10, 1, "", 0⟩]).dominatedBy = [("P", 0)] := by
  refine ⟨by decide, ?_, ?_, ?_⟩
  · exact (claim_C8_boundary 3 ⟨"P", "P", [("v", 5)]⟩ [⟨"v", "V", 0, 10, 1, "", 0⟩]).1
  · exact ((claim_C8_boundary 3 ⟨"P", "P", [("v", 5)]⟩
      [⟨"v", "V", 0, 10, 1, "", 0⟩]).2.2 (by decide)).1
  · exact ((claim_C8_boundary 3 ⟨"P", "P", [("v", 5)]⟩
      [⟨"v", "V", 0, 10, 1, "", 0⟩]).2.2 (by decide)).2.2.2.2.2

/-- C9: for every record and non-empty active attribute list whose accumulated
normalized magnitude is below 0.01, the color mapper returns the fixed dark
neutral fallback d3.hcl(0, 0, 30), regardless of the trigonometric functions
and hence of the direction of the accumulated vector. -/
theorem claim_C9_low_magnitude_fallback (t : TrigOps) (point : DataPoint)
    (attributes : List AttributeConfig) (hne : ¬ attributes = [])
    (hnorm : totalNormOf point attributes < 1 / 100) :
    computeColorMapND t point attributes = ColorOutput.d3hcl 0 0 30 := by
  have hlen : ¬ attributes.length = 0 := fun h => hne (List.length_eq_zero.mp h)
  rw [computeColorMapND, if_neg hlen]
  dsimp only
  have hacc : ∀ (l : List AttributeConfig) (x y z : ℚ),
      (l.foldl (colorStep t point) (x, y, z)).2.2
        = l.foldl (fun s attr =>
            s + (point.get attr.key - attr.min) / max 1 (attr.max - attr.min)) z := by
    intro l
    induction l with
    | nil => intro x y z; rfl
    | cons attr rest ih =>
      intro x y z
      rw [List.foldl_cons, List.foldl_cons]
      exact ih _ _ _
  have hcond : (attributes.foldl (colorStep t point) (0, 0, 0)).2.2
      = totalNormOf point attributes := hacc attributes 0 0 0
  rw [hcond, if_pos hnorm]

theorem claim_C9_witness :
    (¬ ([⟨"v", "V", 0, 100, 1, "", 0⟩] : List AttributeConfig) = [] ∧
      totalNormOf ⟨"P", "P", []⟩ [⟨"v", "V", 0, 100, 1, "", 0⟩] < 1 / 100) ∧
    computeColorMapND ⟨fun _ => 0, fun _ => 0, fun _ _ => 0, fun _ => 0, 0⟩
      ⟨"P", "P", []⟩ [⟨"v", "V", 0, 100, 1, "", 0⟩] = ColorOutput.d3hcl 0 0 30 :=
  ⟨⟨by decide, by norm_num [totalNormOf, DataPoint.get]⟩,
    claim_C9_low_magnitude_fallback ⟨fun _ => 0, fun _ => 0, fun _ _ => 0, fun _ => 0, 0⟩
      ⟨"P", "P", []⟩ [⟨"v", "V", 0, 100, 1, "", 0⟩] (by decide)
      (by norm_num [totalNormOf, DataPoint.get])⟩

/-- C10: with an empty active attribute list the color mapper returns the
string literal constant while computing nothing else; that constant is
distinct from the low-magnitude dark-neutral fallback d3.hcl(0, 0, 30), whose
rendered rgb(r, g, b) string is never the literal. -/
theorem claim_C10_empty_attrs_const (t : TrigOps) (point : DataPoint) :
    computeColorMapND t point [] = ColorOutput.hexLiteral "#475569" ∧
    ¬ (ColorOutput.hexLiteral "#475569" = ColorOutput.d3hcl 0 0 30) :=
  ⟨rfl, fun h => ColorOutput.noConfusion h⟩

end Skylens
